import Mathlib

/-!
Shallow embedding of the multiplayer race game server (src/server/index.js,
mirrored by src/src/utils/gamePhysics.ts) together with theorems checking the
frozen claims about it.

Modelling conventions.  JavaScript numbers are modelled as real numbers for
kinematic quantities (positions, velocities, angles, speed caps) and as
integers (health, ammunition) or naturals (lap and tick counters) for fields
that only ever hold integral values in the program.  Math.sqrt is Real.sqrt,
Math.cos and Math.sin are Real.cos and Real.sin, and Math.atan2 y x is the
argument of the complex number x + y*I.  Sources of nondeterminism in the
code (uuidv4 identifiers, Math.random power-up positions, Date.now based
identifiers) are passed in as explicit parameters.  Network emission and
console logging are omitted; the interval scheduler is modelled as the set of
room identifiers that currently own a running loop.
-/

noncomputable section
namespace RaceGame
open Classical

/-- PHYSICS.FRICTION from src/server/index.js. -/
def FRICTION : ℝ := 0.95

/-- PHYSICS.TURN_SPEED. -/
def TURN_SPEED : ℝ := 0.08

/-- PHYSICS.ACCELERATION. -/
def ACCELERATION : ℝ := 0.5

/-- PHYSICS.BRAKE_FORCE. -/
def BRAKE_FORCE : ℝ := 0.8

/-- PHYSICS.MAX_SPEED. -/
def MAX_SPEED : ℝ := 8

/-- PHYSICS.BOTTLE_SPEED. -/
def BOTTLE_SPEED : ℝ := 12

/-- PHYSICS.TRACK_WIDTH. -/
def TRACK_WIDTH : ℝ := 800

/-- PHYSICS.TRACK_HEIGHT. -/
def TRACK_HEIGHT : ℝ := 600

/-- A 2D point or vector, as the object literal x/y pairs of the code. -/
@[ext] structure Vec2 where
  x : ℝ
  y : ℝ

/-- Math.atan2 y x, modelled as the argument of the complex number x + y*I. -/
def atan2 (y x : ℝ) : ℝ := Complex.arg ⟨x, y⟩

/-- The five key flags of the input payload (input.keys in playerInput). -/
structure InputKeys where
  up : Bool
  down : Bool
  left : Bool
  right : Bool
  space : Bool

/-- A room member entry as pushed by createRoom and joinRoom. -/
structure Player where
  id : String
  name : String

/-- The four power-up type strings. -/
inductive PowerUpType where
  | speed
  | shield
  | health
  | bottles
deriving DecidableEq

/-- A power-up object as built by generatePowerUps. -/
structure PowerUp where
  id : String
  type : PowerUpType
  position : Vec2
  collected : Bool

/-- An entry of car.powerUps: a spread copy of a power-up plus a duration,
as pushed by the shield case of applyPowerUp. -/
structure TimedPowerUp where
  id : String
  type : PowerUpType
  position : Vec2
  collected : Bool
  duration : ℝ

/-- A car object as built by createCar. -/
structure Car where
  id : String
  playerId : String
  playerName : String
  position : Vec2
  velocity : Vec2
  rotation : ℝ
  health : ℤ
  maxHealth : ℤ
  speed : ℝ
  maxSpeed : ℝ
  acceleration : ℝ
  bottles : ℤ
  lap : ℕ
  lapTime : ℕ
  totalTime : ℕ
  isEliminated : Bool
  powerUps : List TimedPowerUp
  color : String

/-- A bottle projectile object as built by createBottle. -/
structure Bottle where
  id : String
  position : Vec2
  velocity : Vec2
  playerId : String
  damage : ℤ
  active : Bool

/-- The per-room game state object of createInitialGameState. -/
structure GameState where
  id : String
  players : List Car
  bottles : List Bottle
  powerUps : List PowerUp
  gameStarted : Bool
  gameEnded : Bool
  winner : Option String
  raceTime : ℕ
  maxLaps : ℕ

/-- A room object as built by the createRoom handler. -/
structure Room where
  id : String
  name : String
  players : List Player
  maxPlayers : ℕ
  host : String
  gameState : GameState

/-- The process-wide mutable state: the rooms map (insertion ordered) and the
set of room ids that own a running game loop (the gameLoops map). -/
structure Registry where
  rooms : List Room
  loops : List String

/-- createInitialGameState. -/
def createInitialGameState (roomId : String) : GameState :=
  { id := roomId
    players := []
    bottles := []
    powerUps := []
    gameStarted := false
    gameEnded := false
    winner := none
    raceTime := 0
    maxLaps := 3 }

/-- The colors array of createCar. -/
def carColors : List String :=
  ["#ff4444", "#44ff44", "#4444ff", "#ffff44", "#ff44ff", "#44ffff"]

/-- The startPositions array of createCar. -/
def startPositions : List Vec2 :=
  [⟨100, 100⟩, ⟨100, 140⟩, ⟨100, 180⟩, ⟨100, 220⟩, ⟨100, 260⟩, ⟨100, 300⟩]

/-- createCar.  The uuidv4 identifier is passed in as carId. -/
def createCar (carId playerId playerName : String) (index : ℕ) : Car :=
  { id := carId
    playerId := playerId
    playerName := playerName
    position := (startPositions[index]?).getD ⟨100, 100 + (index : ℝ) * 40⟩
    velocity := ⟨0, 0⟩
    rotation := 0
    health := 100
    maxHealth := 100
    speed := 0
    maxSpeed := MAX_SPEED
    acceleration := ACCELERATION
    bottles := 5
    lap := 0
    lapTime := 0
    totalTime := 0
    isEliminated := false
    powerUps := []
    color := (carColors[index % carColors.length]?).getD "#ff4444" }

/-- The types array of generatePowerUps. -/
def powerUpTypes : List PowerUpType :=
  [PowerUpType.speed, PowerUpType.shield, PowerUpType.health, PowerUpType.bottles]

/-- generatePowerUps.  The uuidv4 identifiers and the Math.random positions of
generatePowerUpPositions are passed in as parameters; types cycle round-robin
over the four kinds exactly as types[index % types.length]. -/
def generatePowerUps (ids : List String) (positions : List Vec2) : List PowerUp :=
  positions.mapIdx fun i pos =>
    { id := (ids[i]?).getD ""
      type := (powerUpTypes[i % powerUpTypes.length]?).getD PowerUpType.speed
      position := pos
      collected := false }

/-- Math.sqrt(v.x ** 2 + v.y ** 2), the speed magnitude computation used by
updateCarPhysics. -/
def speedOf (v : Vec2) : ℝ := Real.sqrt (v.x ^ 2 + v.y ^ 2)

/-- keepInBounds: clamp the position to the 20-unit inset rectangle and
reflect the corresponding velocity component to half its absolute value
directed inward, one if statement at a time, exactly as in the source. -/
def keepInBounds (car : Car) : Car :=
  let margin : ℝ := 20
  let px1 := if car.position.x < margin then margin else car.position.x
  let vx1 := if car.position.x < margin then |car.velocity.x| * 0.5 else car.velocity.x
  let px2 := if TRACK_WIDTH - margin < px1 then TRACK_WIDTH - margin else px1
  let vx2 := if TRACK_WIDTH - margin < px1 then -|vx1| * 0.5 else vx1
  let py1 := if car.position.y < margin then margin else car.position.y
  let vy1 := if car.position.y < margin then |car.velocity.y| * 0.5 else car.velocity.y
  let py2 := if TRACK_HEIGHT - margin < py1 then TRACK_HEIGHT - margin else py1
  let vy2 := if TRACK_HEIGHT - margin < py1 then -|vy1| * 0.5 else vy1
  { car with position := ⟨px2, py2⟩, velocity := ⟨vx2, vy2⟩ }

/-- updateCarPhysics: acceleration, brake, speed-gated turning, friction,
speed clamping, position integration, then keepInBounds. -/
def updateCarPhysics (car : Car) (input : InputKeys) : Car :=
  let v1 : Vec2 := if input.up then
      ⟨car.velocity.x + Real.cos car.rotation * ACCELERATION,
       car.velocity.y + Real.sin car.rotation * ACCELERATION⟩
    else car.velocity
  let v2 : Vec2 := if input.down then ⟨v1.x * BRAKE_FORCE, v1.y * BRAKE_FORCE⟩ else v1
  let sp := speedOf v2
  let rot1 : ℝ :=
    if 0.5 < sp then
      let r1 := if input.left then car.rotation - TURN_SPEED * (sp / MAX_SPEED) else car.rotation
      if input.right then r1 + TURN_SPEED * (sp / MAX_SPEED) else r1
    else car.rotation
  let v3 : Vec2 := ⟨v2.x * FRICTION, v2.y * FRICTION⟩
  let currentSpeed := speedOf v3
  let v4 : Vec2 := if car.maxSpeed < currentSpeed then
      ⟨v3.x / currentSpeed * car.maxSpeed, v3.y / currentSpeed * car.maxSpeed⟩
    else v3
  keepInBounds { car with
    velocity := v4
    rotation := rot1
    position := ⟨car.position.x + v4.x, car.position.y + v4.y⟩ }

/-- createBottle.  The Date.now / Math.random identifier is passed in. -/
def createBottle (bottleId : String) (car : Car) : Bottle :=
  { id := bottleId
    position := ⟨car.position.x + Real.cos car.rotation * 40,
                 car.position.y + Real.sin car.rotation * 40⟩
    velocity := ⟨Real.cos car.rotation * BOTTLE_SPEED + car.velocity.x,
                 Real.sin car.rotation * BOTTLE_SPEED + car.velocity.y⟩
    playerId := car.playerId
    damage := 20
    active := true }

/-- The out-of-bounds test of updateBottlePhysics, over the full track
rectangle. -/
def outOfBounds (p : Vec2) : Prop :=
  p.x < 0 ∨ TRACK_WIDTH < p.x ∨ p.y < 0 ∨ TRACK_HEIGHT < p.y

/-- updateBottlePhysics: integrate position, then deactivate when the new
position leaves the track rectangle. -/
def updateBottlePhysics (bottle : Bottle) : Bottle :=
  let p : Vec2 := ⟨bottle.position.x + bottle.velocity.x,
                   bottle.position.y + bottle.velocity.y⟩
  { bottle with position := p, active := if outOfBounds p then false else bottle.active }

/-- checkCollision: two circles collide iff the distance between the centers
is below the sum of the radii. -/
def checkCollision (pos1 pos2 : Vec2) (radius1 radius2 : ℝ) : Prop :=
  Real.sqrt ((pos1.x - pos2.x) ^ 2 + (pos1.y - pos2.y) ^ 2) < radius1 + radius2

/-- handleBottleCarCollision.  Returns the (possibly deactivated) bottle, the
(possibly damaged and knocked back) car, and whether a hit happened. -/
def handleBottleCarCollision (bottle : Bottle) (car : Car) : Bottle × Car × Bool :=
  if bottle.playerId = car.playerId ∨ bottle.active = false then (bottle, car, false)
  else if checkCollision bottle.position car.position 5 20 then
    let angle := atan2 (car.position.y - bottle.position.y) (car.position.x - bottle.position.x)
    ({ bottle with active := false },
     { car with health := car.health - bottle.damage,
                velocity := ⟨car.velocity.x + Real.cos angle * 3,
                             car.velocity.y + Real.sin angle * 3⟩ },
     true)
  else (bottle, car, false)

/-- applyPowerUp. -/
def applyPowerUp (powerUp : PowerUp) (car : Car) : Car :=
  match powerUp.type with
  | PowerUpType.speed => { car with maxSpeed := min (car.maxSpeed + 2) 12 }
  | PowerUpType.shield =>
      { car with powerUps := car.powerUps ++
          [{ id := powerUp.id, type := powerUp.type, position := powerUp.position,
             collected := powerUp.collected, duration := 8000 }] }
  | PowerUpType.health => { car with health := min (car.health + 30) car.maxHealth }
  | PowerUpType.bottles => { car with bottles := car.bottles + 3 }

/-- The deferred setTimeout callback scheduled by the speed case of
applyPowerUp: five seconds later the speed cap reverts to PHYSICS.MAX_SPEED
without touching the velocity. -/
def speedBoostExpire (car : Car) : Car := { car with maxSpeed := MAX_SPEED }

/-- handlePowerUpCollection.  Returns the (possibly collected) power-up, the
(possibly boosted) car, and whether a collection happened. -/
def handlePowerUpCollection (powerUp : PowerUp) (car : Car) : PowerUp × Car × Bool :=
  if powerUp.collected then (powerUp, car, false)
  else if checkCollision powerUp.position car.position 15 20 then
    ({ powerUp with collected := true }, applyPowerUp powerUp car, true)
  else (powerUp, car, false)

/-- The elimination update performed by updateGame right after a hit:
if car.health <= 0 then car.isEliminated = true. -/
def elimCheck (car : Car) : Car :=
  if car.health ≤ 0 then { car with isEliminated := true } else car

/-- The inner car loop of the bottle filter in updateGame: the first
non-eliminated car for which handleBottleCarCollision reports a hit is
damaged and elimination-checked, and the loop breaks. -/
def bottleHitScan (bottle : Bottle) : List Car → Bottle × List Car
  | [] => (bottle, [])
  | car :: cars =>
    if car.isEliminated = false ∧ (handleBottleCarCollision bottle car).2.2 = true then
      ((handleBottleCarCollision bottle car).1,
       elimCheck (handleBottleCarCollision bottle car).2.1 :: cars)
    else
      let r := bottleHitScan bottle cars
      (r.1, car :: r.2)

/-- The body of the bottle filter of updateGame for one active bottle:
move it, then run the car loop. -/
def processBottle (bottle : Bottle) (cars : List Car) : Bottle × List Car :=
  bottleHitScan (updateBottlePhysics bottle) cars

/-- The whole bottle filter of updateGame: inactive bottles are dropped,
every other bottle is moved and resolved against the cars (whose updated
state is threaded to the next bottle), and only bottles still active
afterwards are kept. -/
def stepBottles : List Bottle → List Car → List Bottle × List Car
  | [], cars => ([], cars)
  | b :: bs, cars =>
    if b.active = false then stepBottles bs cars
    else
      let r1 := processBottle b cars
      let r2 := stepBottles bs r1.2
      (if r1.1.active then r1.1 :: r2.1 else r2.1, r2.2)

/-- The inner car loop of the power-up forEach in updateGame: the first
non-eliminated car for which handlePowerUpCollection reports a collection
receives the effect, and the loop breaks. -/
def powerUpScan (powerUp : PowerUp) : List Car → PowerUp × List Car
  | [] => (powerUp, [])
  | car :: cars =>
    if car.isEliminated = false ∧ (handlePowerUpCollection powerUp car).2.2 = true then
      ((handlePowerUpCollection powerUp car).1,
       (handlePowerUpCollection powerUp car).2.1 :: cars)
    else
      let r := powerUpScan powerUp cars
      (r.1, car :: r.2)

/-- The power-up forEach of updateGame: collected power-ups are skipped,
the rest are offered to the cars in insertion order. -/
def stepPowerUps : List PowerUp → List Car → List PowerUp × List Car
  | [], cars => ([], cars)
  | p :: ps, cars =>
    let r1 := if p.collected then (p, cars) else powerUpScan p cars
    let r2 := stepPowerUps ps r1.2
    (r1.1 :: r2.1, r2.2)

/-- The lap-crossing zone predicate of updateGame:
x < 50 and y < 100 and velocity.x > 0. -/
def inLapZone (car : Car) : Prop :=
  car.position.x < 50 ∧ car.position.y < 100 ∧ 0 < car.velocity.x

/-- The per-car body of the lap forEach of updateGame.  Returns the updated
car and whether this car just reached the lap target. -/
def lapCar (maxLaps raceTime : ℕ) (car : Car) : Car × Bool :=
  if car.isEliminated then (car, false)
  else
    let c1 := { car with totalTime := raceTime }
    if inLapZone c1 then
      if c1.lap < maxLaps then
        let c2 := { c1 with lap := c1.lap + 1 }
        (c2, decide (maxLaps ≤ c2.lap))
      else (c1, false)
    else (c1, false)

/-- The lap forEach of updateGame, threading the gameEnded and winner
mutations through the list in iteration order. -/
def stepLaps (maxLaps raceTime : ℕ) :
    List Car → Bool → Option String → List Car × Bool × Option String
  | [], ended, winner => ([], ended, winner)
  | car :: cars, ended, winner =>
    let r1 := lapCar maxLaps raceTime car
    let ended1 := if r1.2 then true else ended
    let winner1 := if r1.2 then some r1.1.playerId else winner
    let r2 := stepLaps maxLaps raceTime cars ended1 winner1
    (r1.1 :: r2.1, r2.2.1, r2.2.2)

/-- Lap tracking followed by the last-vehicle-standing check of updateGame. -/
def evalRace (maxLaps raceTime : ℕ) (cars : List Car) (ended : Bool)
    (winner : Option String) : List Car × Bool × Option String :=
  let r := stepLaps maxLaps raceTime cars ended winner
  let alive := r.1.filter fun c => !c.isEliminated
  if alive.length ≤ 1 ∧ r.2.1 = false then
    (r.1, true,
     match alive with
     | [a] => some a.playerId
     | _ => r.2.2)
  else r

/-- One tick of updateGame past its guard: advance raceTime, run the bottle
filter, the power-up collection, lap tracking with the win condition, and the
periodic power-up respawn (a fresh generatePowerUps batch trimmed to 2 when
fewer than 4 uncollected power-ups remain every 600 ticks). -/
def stepGame (puIds : List String) (puPos : List Vec2) (gs : GameState) : GameState :=
  let raceTime1 := gs.raceTime + 1
  let rb := stepBottles gs.bottles gs.players
  let rp := stepPowerUps gs.powerUps rb.2
  let rl := evalRace gs.maxLaps raceTime1 rp.2 gs.gameEnded gs.winner
  let powerUps1 :=
    if raceTime1 % 600 = 0 ∧ (rp.1.filter fun p => !p.collected).length < 4 then
      rp.1 ++ (generatePowerUps puIds puPos).take 2
    else rp.1
  { gs with raceTime := raceTime1, bottles := rb.1, players := rl.1,
            powerUps := powerUps1, gameEnded := rl.2.1, winner := rl.2.2 }

/-- updateGame on one room: a no-op unless the game is started and not yet
ended, otherwise one stepGame tick on the game state. -/
def updateGame (puIds : List String) (puPos : List Vec2) (room : Room) : Room :=
  if room.gameState.gameStarted = false ∨ room.gameState.gameEnded = true then room
  else { room with gameState := stepGame puIds puPos room.gameState }

/-- players.find(p => p.playerId === socket.id) of the playerInput handler. -/
def findCar (cars : List Car) (pid : String) : Option Car :=
  cars.find? fun c => c.playerId == pid

/-- In-place mutation of the car object found by the playerInput handler:
replace the first car with the given player id. -/
def replaceFirstCar (pid : String) (newCar : Car) : List Car → List Car
  | [] => []
  | c :: cs => if c.playerId == pid then newCar :: cs else c :: replaceFirstCar pid newCar cs

/-- The playerInput handler on one room: ignore unless the game is started
and the sender owns a non-eliminated car; fire a bottle when space is held
and ammunition remains; then run the car physics with the input flags. -/
def playerInputRoom (sockId : String) (input : InputKeys) (bottleId : String)
    (room : Room) : Room :=
  if room.gameState.gameStarted = false then room
  else
    match findCar room.gameState.players sockId with
    | none => room
    | some car =>
      if car.isEliminated then room
      else
        let fire := input.space && decide (0 < car.bottles)
        let bottles1 := if fire then room.gameState.bottles ++ [createBottle bottleId car]
          else room.gameState.bottles
        let car1 := if fire then { car with bottles := car.bottles - 1 } else car
        let car2 := updateCarPhysics car1 input
        { room with gameState := { room.gameState with
            bottles := bottles1
            players := replaceFirstCar sockId car2 room.gameState.players } }

/-- The joinRoom handler on one room: reject when full or when the caller is
already a member, otherwise append the caller to the member list. -/
def joinRoomRoom (pid pname : String) (room : Room) : Room :=
  if room.maxPlayers ≤ room.players.length then room
  else if room.players.any fun p => p.id == pid then room
  else { room with players := room.players ++ [{ id := pid, name := pname }] }

/-- List.map with the element index, as Array.prototype.map(fn(elem, index)). -/
def mapWithIndex (f : ℕ → Player → Car) : ℕ → List Player → List Car
  | _, [] => []
  | i, p :: ps => f i p :: mapWithIndex f (i + 1) ps

/-- The state reset of the startGame handler past its guard: one car per
member keyed by join order, a fresh batch of power-ups, gameStarted true,
gameEnded false, raceTime zero.  Neither winner nor the bottles list is
reset. -/
def startSession (carIds puIds : List String) (puPos : List Vec2) (room : Room) : Room :=
  { room with gameState := { room.gameState with
      players := mapWithIndex
        (fun i p => createCar ((carIds[i]?).getD "") p.id p.name i) 0 room.players
      powerUps := generatePowerUps puIds puPos
      gameStarted := true
      gameEnded := false
      raceTime := 0 } }

/-- players.splice(playerIndex, 1) of the disconnect handler: remove the
first member with the given id. -/
def removeFirstPlayer (pid : String) : List Player → List Player
  | [] => []
  | p :: ps => if p.id == pid then ps else p :: removeFirstPlayer pid ps

/-- The per-room part of the disconnect handler: remove the member and the
owned car; none when membership becomes empty (the room is destroyed),
otherwise the surviving room with the host reassigned to the first remaining
member when the host left. -/
def leaveRoomStep (sockId : String) (room : Room) : Option Room :=
  let players1 := removeFirstPlayer sockId room.players
  let room1 := { room with
    players := players1
    gameState := { room.gameState with
      players := room.gameState.players.filter fun c => !(c.playerId == sockId) } }
  match players1 with
  | [] => none
  | p :: _ => some (if room.host == sockId then { room1 with host := p.id } else room1)

/-- rooms.find for the registry handlers (Map.get on the rooms map). -/
def findRoom (rid : String) (rooms : List Room) : Option Room :=
  rooms.find? fun r => r.id == rid

/-- Map.set on an existing key: replace the first room with the given id. -/
def replaceRoom (rid : String) (newRoom : Room) : List Room → List Room
  | [] => []
  | r :: rs => if r.id == rid then newRoom :: rs else r :: replaceRoom rid newRoom rs

/-- gameLoops.set for a room id (the identity of the interval is irrelevant,
only which rooms own a loop). -/
def addLoop (rid : String) (loops : List String) : List String :=
  if loops.contains rid then loops else loops ++ [rid]

/-- The createRoom handler: a fresh room with the creator as sole member and
host.  The uuidv4 room id is passed in. -/
def createRoomOp (rid rname pname sockId : String) (reg : Registry) : Registry :=
  { reg with rooms := reg.rooms ++
      [{ id := rid, name := rname, players := [{ id := sockId, name := pname }],
         maxPlayers := 6, host := sockId, gameState := createInitialGameState rid }] }

/-- The joinRoom handler at registry level. -/
def joinRoomOp (rid pid pname : String) (reg : Registry) : Registry :=
  match findRoom rid reg.rooms with
  | none => reg
  | some room => { reg with rooms := replaceRoom rid (joinRoomRoom pid pname room) reg.rooms }

/-- The startGame handler: only the host of an existing room with at least
two members may start; on success the session is reset and the game loop for
the room is started. -/
def startGameOp (rid sockId : String) (carIds puIds : List String) (puPos : List Vec2)
    (reg : Registry) : Registry :=
  match findRoom rid reg.rooms with
  | none => reg
  | some room =>
    if room.host == sockId && decide (2 ≤ room.players.length) then
      { rooms := replaceRoom rid (startSession carIds puIds puPos room) reg.rooms
        loops := addLoop rid reg.loops }
    else reg

/-- The playerInput handler at registry level. -/
def playerInputOp (rid sockId : String) (input : InputKeys) (bottleId : String)
    (reg : Registry) : Registry :=
  match findRoom rid reg.rooms with
  | none => reg
  | some room =>
    { reg with rooms := replaceRoom rid (playerInputRoom sockId input bottleId room) reg.rooms }

/-- One firing of the interval callback for a room: updateGame, and when the
game has just ended the loop is cleared. -/
def tickOp (rid : String) (puIds : List String) (puPos : List Vec2) (reg : Registry) : Registry :=
  match findRoom rid reg.rooms with
  | none => reg
  | some room =>
    if room.gameState.gameStarted = false ∨ room.gameState.gameEnded = true then reg
    else
      let room1 := { room with gameState := stepGame puIds puPos room.gameState }
      { rooms := replaceRoom rid room1 reg.rooms
        loops := if room1.gameState.gameEnded then reg.loops.filter fun l => !(l == rid)
          else reg.loops }

/-- The room iteration of the disconnect handler: the first room containing
the disconnecting member is updated (or destroyed together with its loop)
and the iteration breaks. -/
def disconnectRooms (sockId : String) : List Room → List String → List Room × List String
  | [], loops => ([], loops)
  | r :: rs, loops =>
    if r.players.any fun p => p.id == sockId then
      match leaveRoomStep sockId r with
      | none => (rs, loops.filter fun l => !(l == r.id))
      | some r1 => (r1 :: rs, loops)
    else
      let t := disconnectRooms sockId rs loops
      (r :: t.1, t.2)

/-- The disconnect handler at registry level. -/
def disconnectOp (sockId : String) (reg : Registry) : Registry :=
  let t := disconnectRooms sockId reg.rooms reg.loops
  { rooms := t.1, loops := t.2 }

/-- Every registry state reachable by a sequence of handler invocations from
the empty process state. -/
inductive RegReach : Registry → Prop
  | empty : RegReach ⟨[], []⟩
  | create (reg : Registry) (rid rname pname sockId : String) :
      RegReach reg → RegReach (createRoomOp rid rname pname sockId reg)
  | join (reg : Registry) (rid pid pname : String) :
      RegReach reg → RegReach (joinRoomOp rid pid pname reg)
  | start (reg : Registry) (rid sockId : String) (carIds puIds : List String)
      (puPos : List Vec2) :
      RegReach reg → RegReach (startGameOp rid sockId carIds puIds puPos reg)
  | input (reg : Registry) (rid sockId : String) (inp : InputKeys) (bottleId : String) :
      RegReach reg → RegReach (playerInputOp rid sockId inp bottleId reg)
  | tick (reg : Registry) (rid : String) (puIds : List String) (puPos : List Vec2) :
      RegReach reg → RegReach (tickOp rid puIds puPos reg)
  | disconnect (reg : Registry) (sockId : String) :
      RegReach reg → RegReach (disconnectOp sockId reg)

/-- The two session operations that touch a car health: a qualifying bottle
hit from updateGame (damage then elimination check) and a qualifying health
power-up collection, each only offered to non-eliminated cars exactly as the
updateGame loops do. -/
inductive HealthOp : Car → Car → Prop
  | hit (car : Car) (b : Bottle) (helim : car.isEliminated = false) (hdmg : b.damage = 20)
      (hcol : (handleBottleCarCollision b car).2.2 = true) :
      HealthOp car (elimCheck (handleBottleCarCollision b car).2.1)
  | heal (car : Car) (p : PowerUp) (helim : car.isEliminated = false)
      (htype : p.type = PowerUpType.health)
      (hcol : (handlePowerUpCollection p car).2.2 = true) :
      HealthOp car (handlePowerUpCollection p car).2.1

/-- A freshly created car, as produced at game start. -/
def CarInit (car : Car) : Prop :=
  ∃ cid pid pname idx, car = createCar cid pid pname idx

/-- A car state reachable from a fresh car by projectile hits and health
power-up collections. -/
def HealthReach (car : Car) : Prop :=
  ∃ c0, CarInit c0 ∧ Relation.ReflTransGen HealthOp c0 car

/-! Concrete states used to settle the claims about the session phase and the
input handler. -/

/-- A finished game state (flags as updateGame leaves them after a win). -/
def c2Gs : GameState :=
  { id := "room1", players := [], bottles := [], powerUps := [],
    gameStarted := true, gameEnded := true, winner := some "alice",
    raceTime := 120, maxLaps := 3 }

/-- A two-member room whose session has finished. -/
def c2Room : Room :=
  { id := "room1", name := "track", players := [⟨"alice", "Alice"⟩, ⟨"bob", "Bob"⟩],
    maxPlayers := 6, host := "alice", gameState := c2Gs }

/-- A registry holding just the finished room. -/
def c2Reg : Registry := ⟨[c2Room], []⟩

/-- A live car owned by alice. -/
def c3Car : Car := createCar "car1" "alice" "Alice" 0

/-- A finished game state that still contains a live car: updateGame sets
gameEnded but never clears gameStarted. -/
def c3Gs : GameState :=
  { id := "room1", players := [c3Car], bottles := [], powerUps := [],
    gameStarted := true, gameEnded := true, winner := none,
    raceTime := 50, maxLaps := 3 }

/-- The room around that finished game state. -/
def c3Room : Room :=
  { id := "room1", name := "track", players := [⟨"alice", "Alice"⟩, ⟨"bob", "Bob"⟩],
    maxPlayers := 6, host := "alice", gameState := c3Gs }

/-- A fire-only input. -/
def c3Input : InputKeys := ⟨false, false, false, false, true⟩

/-- The same room before its game ever started. -/
def c3RoomLobby : Room := { c3Room with gameState := { c3Gs with gameStarted := false } }

/-- A room whose only car is eliminated. -/
def c3RoomElim : Room :=
  { c3Room with gameState := { c3Gs with
      gameEnded := false
      players := [{ c3Car with isEliminated := true }] } }

/-- A room whose only car has no ammunition left. -/
def c3RoomAmmo : Room :=
  { c3Room with gameState := { c3Gs with
      gameEnded := false
      players := [{ c3Car with bottles := 0 }] } }

/-! Characterization of keepInBounds, used for claim C5. -/

/-- The clamped x coordinate of keepInBounds, written as one nested
conditional. -/
theorem keepInBounds_pos_x (car : Car) :
    (keepInBounds car).position.x =
      if car.position.x < 20 then 20
      else if 780 < car.position.x then 780 else car.position.x := by
  unfold keepInBounds TRACK_WIDTH
  dsimp only
  split_ifs <;> linarith

/-- The reflected x velocity of keepInBounds. -/
theorem keepInBounds_vel_x (car : Car) :
    (keepInBounds car).velocity.x =
      if car.position.x < 20 then |car.velocity.x| * 0.5
      else if 780 < car.position.x then -|car.velocity.x| * 0.5 else car.velocity.x := by
  unfold keepInBounds TRACK_WIDTH
  dsimp only
  split_ifs <;> linarith

/-- The clamped y coordinate of keepInBounds. -/
theorem keepInBounds_pos_y (car : Car) :
    (keepInBounds car).position.y =
      if car.position.y < 20 then 20
      else if 580 < car.position.y then 580 else car.position.y := by
  unfold keepInBounds TRACK_HEIGHT
  dsimp only
  split_ifs <;> linarith

/-- The reflected y velocity of keepInBounds. -/
theorem keepInBounds_vel_y (car : Car) :
    (keepInBounds car).velocity.y =
      if car.position.y < 20 then |car.velocity.y| * 0.5
      else if 580 < car.position.y then -|car.velocity.y| * 0.5 else car.velocity.y := by
  unfold keepInBounds TRACK_HEIGHT
  dsimp only
  split_ifs <;> linarith

/-- keepInBounds lands inside the inset rectangle. -/
theorem keepInBounds_mem (car : Car) :
    20 ≤ (keepInBounds car).position.x ∧ (keepInBounds car).position.x ≤ 780 ∧
    20 ≤ (keepInBounds car).position.y ∧ (keepInBounds car).position.y ≤ 580 := by
  rw [keepInBounds_pos_x, keepInBounds_pos_y]
  refine ⟨?_, ?_, ?_, ?_⟩ <;> split_ifs <;> linarith

/-- updateCarPhysics finishes with keepInBounds on the integrated car. -/
theorem updateCarPhysics_eq_keepInBounds (car : Car) (input : InputKeys) :
    ∃ c, updateCarPhysics car input = keepInBounds c :=
  ⟨_, rfl⟩

/-- C5: after every physics update the position lies within the inset
rectangle [20,780] x [20,580], and whenever the integrated position crosses a
margin on an axis keepInBounds clamps that coordinate to the margin and
replaces the velocity component on that axis by half its absolute value
directed inward, each axis independently. -/
theorem claim5_bounds_and_reflect (car : Car) (input : InputKeys) :
    (20 ≤ (updateCarPhysics car input).position.x ∧
     (updateCarPhysics car input).position.x ≤ 780 ∧
     20 ≤ (updateCarPhysics car input).position.y ∧
     (updateCarPhysics car input).position.y ≤ 580) ∧
    ((keepInBounds car).position.x =
      if car.position.x < 20 then 20
      else if 780 < car.position.x then 780 else car.position.x) ∧
    ((keepInBounds car).velocity.x =
      if car.position.x < 20 then |car.velocity.x| * 0.5
      else if 780 < car.position.x then -|car.velocity.x| * 0.5 else car.velocity.x) ∧
    ((keepInBounds car).position.y =
      if car.position.y < 20 then 20
      else if 580 < car.position.y then 580 else car.position.y) ∧
    ((keepInBounds car).velocity.y =
      if car.position.y < 20 then |car.velocity.y| * 0.5
      else if 580 < car.position.y then -|car.velocity.y| * 0.5 else car.velocity.y) := by
  obtain ⟨c, hc⟩ := updateCarPhysics_eq_keepInBounds car input
  rw [hc]
  exact ⟨keepInBounds_mem c, keepInBounds_pos_x car, keepInBounds_vel_x car,
    keepInBounds_pos_y car, keepInBounds_vel_y car⟩

/-! Claim C2: the phase machine. -/

/-- C2 counterexample: a finished session (ended flag set) is restarted in
place by a startGame request from the host of a room with two members — the
resulting registry holds the same room id with gameStarted true and gameEnded
false again, refuting that the Finished phase is terminal. -/
theorem claim2_counterexample :
    c2Room.gameState.gameEnded = true ∧
    ((startGameOp "room1" "alice" [] [] [] c2Reg).rooms.map
        fun r => (r.id, r.gameState.gameStarted, r.gameState.gameEnded))
      = [("room1", true, false)] :=
  ⟨rfl, rfl⟩

/-- C2 amended: the ended flag does persist under game ticks (updateGame is a
no-op once ended), player input, joins and leaves — but the startGame handler
performs no phase check, so a startGame request on the room resets the very
same session to gameStarted = true and gameEnded = false: Finished is
terminal only for the non-startGame operations. -/
theorem claim2_amended (puIds : List String) (puPos : List Vec2) (room : Room)
    (sockId pid pname bottleId : String) (input : InputKeys) (carIds : List String)
    (hend : room.gameState.gameEnded = true) :
    updateGame puIds puPos room = room ∧
    (playerInputRoom sockId input bottleId room).gameState.gameEnded =
      room.gameState.gameEnded ∧
    (joinRoomRoom pid pname room).gameState = room.gameState ∧
    (∀ r', leaveRoomStep sockId room = some r' →
      r'.gameState.gameEnded = room.gameState.gameEnded) ∧
    ((startSession carIds puIds puPos room).gameState.gameStarted = true ∧
     (startSession carIds puIds puPos room).gameState.gameEnded = false ∧
     (startSession carIds puIds puPos room).gameState.id = room.gameState.id) := by
  refine ⟨?_, ?_, ?_, ?_, rfl, rfl, rfl⟩
  · unfold updateGame
    exact if_pos (Or.inr hend)
  · unfold playerInputRoom
    split
    · rfl
    · split
      · rfl
      · split
        · rfl
        · rfl
  · unfold joinRoomRoom
    split
    · rfl
    · split <;> rfl
  · intro r' hr'
    unfold leaveRoomStep at hr'
    dsimp only at hr'
    revert hr'
    cases removeFirstPlayer sockId room.players with
    | nil => intro h; exact absurd h (by simp)
    | cons p ps =>
      intro h
      have h2 := Option.some.inj h
      rw [← h2]
      split <;> rfl

/-- C2 amended, witnessed on the concrete finished room. -/
theorem claim2_amended_witness :
    updateGame [] [] c2Room = c2Room ∧
    (startSession [] [] [] c2Room).gameState.gameEnded = false := by
  have h := claim2_amended [] [] c2Room "x" "p" "n" "b" ⟨false, false, false, false, false⟩ [] rfl
  exact ⟨h.1, h.2.2.2.2.2.1⟩

/-! Claim C3: which inputs are no-ops. -/

/-- C3 counterexample: the playerInput handler only checks gameStarted, which
stays true after the game ends, so input applied to a finished session is not
a no-op — here a fire input grows the bottles list of a session whose ended
flag is set. -/
theorem claim3_counterexample :
    c3Room.gameState.gameEnded = true ∧
    c3Room.gameState.bottles.length = 0 ∧
    (playerInputRoom "alice" c3Input "b1" c3Room).gameState.bottles.length = 1 :=
  ⟨rfl, rfl, rfl⟩

/-- C3 amended: applyInput is a pure no-op when the session is not started,
or when the sender has no car or an eliminated car; but a finished session
still processes input (gameStarted remains true after the end), and firing
with zero ammunition spawns no projectile and leaves the ammunition count
unchanged while the movement physics is still applied. -/
theorem claim3_amended (sockId bottleId : String) (input : InputKeys) (room : Room) :
    (room.gameState.gameStarted = false → playerInputRoom sockId input bottleId room = room) ∧
    (findCar room.gameState.players sockId = none →
      playerInputRoom sockId input bottleId room = room) ∧
    (∀ car, findCar room.gameState.players sockId = some car → car.isEliminated = true →
      playerInputRoom sockId input bottleId room = room) ∧
    (∀ car, room.gameState.gameStarted = true →
      findCar room.gameState.players sockId = some car → car.isEliminated = false →
      car.bottles ≤ 0 →
      playerInputRoom sockId input bottleId room =
        { room with gameState := { room.gameState with
            players := replaceFirstCar sockId (updateCarPhysics car input)
              room.gameState.players } }) := by
  refine ⟨?_, ?_, ?_, ?_⟩
  · intro h
    simp [playerInputRoom, h]
  · intro h
    by_cases hs : room.gameState.gameStarted = false
    · simp [playerInputRoom, hs]
    · simp [playerInputRoom, hs, h]
  · intro car hfind helim
    by_cases hs : room.gameState.gameStarted = false
    · simp [playerInputRoom, hs]
    · simp [playerInputRoom, hs, hfind, helim]
  · intro car hstart hfind helim hammo
    have hfire : (input.space && decide (0 < car.bottles)) = false := by
      have hd : decide (0 < car.bottles) = false := decide_eq_false (by omega)
      rw [hd, Bool.and_false]
    simp [playerInputRoom, hstart, hfind, helim, hfire]

/-- C3 amended, witnessed on concrete rooms: not started, unknown sender,
eliminated car, and zero ammunition. -/
theorem claim3_amended_witness :
    playerInputRoom "alice" c3Input "b2" c3RoomLobby = c3RoomLobby ∧
    playerInputRoom "ghost" c3Input "b2" c3Room = c3Room ∧
    playerInputRoom "alice" c3Input "b2" c3RoomElim = c3RoomElim ∧
    playerInputRoom "alice" c3Input "b2" c3RoomAmmo =
      { c3RoomAmmo with gameState := { c3RoomAmmo.gameState with
          players := replaceFirstCar "alice"
            (updateCarPhysics { c3Car with bottles := 0 } c3Input)
            c3RoomAmmo.gameState.players } } :=
  ⟨(claim3_amended "alice" "b2" c3Input c3RoomLobby).1 rfl,
   (claim3_amended "ghost" "b2" c3Input c3Room).2.1 rfl,
   (claim3_amended "alice" "b2" c3Input c3RoomElim).2.2.1
     { c3Car with isEliminated := true } rfl rfl,
   (claim3_amended "alice" "b2" c3Input c3RoomAmmo).2.2.2
     { c3Car with bottles := 0 } rfl rfl rfl (le_refl 0)⟩

/-! Claim C1: the health range. -/

/-- A qualifying hit subtracts exactly the bottle damage from health and
changes no field other than health and velocity. -/
theorem hit_effect (b : Bottle) (c : Car)
    (h : (handleBottleCarCollision b c).2.2 = true) :
    ∃ v, (handleBottleCarCollision b c).2.1 =
      { c with health := c.health - b.damage, velocity := v } := by
  unfold handleBottleCarCollision at h ⊢
  by_cases h1 : b.playerId = c.playerId ∨ b.active = false
  · rw [if_pos h1] at h
    exact absurd h (by simp)
  · rw [if_neg h1] at h ⊢
    by_cases h2 : checkCollision b.position c.position 5 20
    · rw [if_pos h2]
      exact ⟨_, rfl⟩
    · rw [if_neg h2] at h
      exact absurd h (by simp)

/-- A qualifying health power-up collection caps health at maxHealth after
adding 30, and changes nothing else. -/
theorem heal_effect (p : PowerUp) (c : Car) (htype : p.type = PowerUpType.health)
    (h : (handlePowerUpCollection p c).2.2 = true) :
    (handlePowerUpCollection p c).2.1 =
      { c with health := min (c.health + 30) c.maxHealth } := by
  unfold handlePowerUpCollection at h ⊢
  by_cases h1 : p.collected = true
  · rw [if_pos h1] at h
    exact absurd h (by simp)
  · rw [if_neg h1] at h ⊢
    by_cases h2 : checkCollision p.position c.position 15 20
    · rw [if_pos h2]
      dsimp only
      unfold applyPowerUp
      rw [htype]
    · rw [if_neg h2] at h
      exact absurd h (by simp)

/-- C1 amended: health never exceeds maxHealth (always 100), but the damage
subtraction is not clamped at zero: the eliminating hit can leave health
negative.  Every reachable health is a multiple of 10, at least 10 while the
car is alive, and never below -10. -/
theorem claim1_amended (car : Car) (h : HealthReach car) :
    car.maxHealth = 100 ∧ car.health ≤ car.maxHealth ∧ (-10 : ℤ) ≤ car.health ∧
    (car.isEliminated = false → 10 ≤ car.health) ∧ (10 : ℤ) ∣ car.health := by
  obtain ⟨c0, ⟨cid, pid, pname, idx, hc0⟩, hrt⟩ := h
  subst hc0
  induction hrt with
  | refl =>
    refine ⟨rfl, ?_, ?_, fun _ => ?_, ?_⟩
    · show (100 : ℤ) ≤ 100
      decide
    · show (-10 : ℤ) ≤ 100
      decide
    · show (10 : ℤ) ≤ 100
      decide
    · show (10 : ℤ) ∣ 100
      decide
  | @tail cc cur _hprev hstep ih =>
    obtain ⟨hmax, hle, hgeneg, hlive, hdvd⟩ := ih
    cases hstep with
    | hit bb helim hdmg hcol =>
      obtain ⟨v, hv⟩ := hit_effect bb cc hcol
      rw [hdmg] at hv
      rw [hv]
      unfold elimCheck
      dsimp only
      have h10 : 10 ≤ cc.health := hlive helim
      by_cases hdead : cc.health - 20 ≤ 0
      · rw [if_pos hdead]
        refine ⟨hmax, ?_, ?_, ?_, ?_⟩
        · show cc.health - 20 ≤ cc.maxHealth
          omega
        · show (-10 : ℤ) ≤ cc.health - 20
          omega
        · intro hfalse
          simp at hfalse
        · show (10 : ℤ) ∣ cc.health - 20
          omega
      · rw [if_neg hdead]
        refine ⟨hmax, ?_, ?_, fun _ => ?_, ?_⟩
        · show cc.health - 20 ≤ cc.maxHealth
          omega
        · show (-10 : ℤ) ≤ cc.health - 20
          omega
        · show (10 : ℤ) ≤ cc.health - 20
          omega
        · show (10 : ℤ) ∣ cc.health - 20
          omega
    | heal pp helim htype hcol =>
      rw [heal_effect pp cc htype hcol]
      have h10 : 10 ≤ cc.health := hlive helim
      refine ⟨hmax, ?_, ?_, fun _ => ?_, ?_⟩
      · show min (cc.health + 30) cc.maxHealth ≤ cc.maxHealth
        omega
      · show (-10 : ℤ) ≤ min (cc.health + 30) cc.maxHealth
        omega
      · show (10 : ℤ) ≤ min (cc.health + 30) cc.maxHealth
        omega
      · show (10 : ℤ) ∣ min (cc.health + 30) cc.maxHealth
        rcases le_total (cc.health + 30) cc.maxHealth with hmin | hmin
        · rw [min_eq_left hmin]
          exact dvd_add hdvd (by norm_num)
        · rw [min_eq_right hmin, hmax]
          norm_num

/-- C1 amended, witnessed on a freshly created car. -/
theorem claim1_amended_witness :
    HealthReach (createCar "car0" "alice" "Alice" 0) ∧
    (-10 : ℤ) ≤ (createCar "car0" "alice" "Alice" 0).health ∧
    (createCar "car0" "alice" "Alice" 0).health ≤
      (createCar "car0" "alice" "Alice" 0).maxHealth := by
  have hr : HealthReach (createCar "car0" "alice" "Alice" 0) :=
    ⟨_, ⟨"car0", "alice", "Alice", 0, rfl⟩, Relation.ReflTransGen.refl⟩
  have h := claim1_amended _ hr
  exact ⟨hr, h.2.2.1, h.2.1⟩

/-- The concrete car of the C1 counterexample run, with the fields that the
health operations touch as parameters. -/
def c1Car (h : ℤ) (vx : ℝ) (e : Bool) : Car :=
  { id := "car0", playerId := "alice", playerName := "Alice",
    position := ⟨100, 100⟩, velocity := ⟨vx, 0⟩, rotation := 0,
    health := h, maxHealth := 100, speed := 0, maxSpeed := MAX_SPEED,
    acceleration := ACCELERATION, bottles := 5, lap := 0, lapTime := 0,
    totalTime := 0, isEliminated := e, powerUps := [], color := "#ff4444" }

/-- The fresh car of the run is exactly a createCar output. -/
theorem c1Car_init : c1Car 100 0 false = createCar "car0" "alice" "Alice" 0 := rfl

/-- A hostile bottle parked on the car position. -/
def c1Bottle : Bottle :=
  { id := "b0", position := ⟨100, 100⟩, velocity := ⟨0, 0⟩, playerId := "bob",
    damage := 20, active := true }

/-- A health power-up parked on the car position. -/
def c1PowerUp : PowerUp :=
  { id := "p0", type := PowerUpType.health, position := ⟨100, 100⟩, collected := false }

/-- atan2 0 0 is 0 (the argument of the complex number 0). -/
theorem atan2_zero_zero : atan2 0 0 = 0 := by
  unfold atan2
  have h0 : (⟨0, 0⟩ : ℂ) = 0 := Complex.ext rfl rfl
  rw [h0, Complex.arg_zero]

/-- A bottle sitting exactly on the car hits it: distance 0, knockback along
angle atan2 0 0 = 0, so the impulse is +3 on the x velocity. -/
theorem handle_same_pos (b : Bottle) (c : Car) (hpos : b.position = c.position)
    (hown : ¬ b.playerId = c.playerId) (hact : b.active = true) :
    handleBottleCarCollision b c =
      ({ b with active := false },
       { c with health := c.health - b.damage,
                velocity := ⟨c.velocity.x + 3, c.velocity.y⟩ }, true) := by
  unfold handleBottleCarCollision
  rw [if_neg (show ¬(b.playerId = c.playerId ∨ b.active = false) by simp [hown, hact])]
  have hcol : checkCollision b.position c.position 5 20 := by
    unfold checkCollision
    rw [hpos, sub_self, sub_self]
    rw [show ((0 : ℝ) ^ 2 + 0 ^ 2) = 0 by norm_num, Real.sqrt_zero]
    norm_num
  rw [if_pos hcol]
  dsimp only
  rw [hpos, sub_self, sub_self, atan2_zero_zero]
  simp [Real.cos_zero, Real.sin_zero]

/-- A power-up sitting exactly on the car is collected. -/
theorem collect_same_pos (p : PowerUp) (c : Car) (hcol : p.collected = false)
    (hpos : p.position = c.position) :
    handlePowerUpCollection p c = ({ p with collected := true }, applyPowerUp p c, true) := by
  unfold handlePowerUpCollection
  rw [if_neg (show ¬(p.collected = true) by simp [hcol])]
  have hcc : checkCollision p.position c.position 15 20 := by
    unfold checkCollision
    rw [hpos, sub_self, sub_self]
    rw [show ((0 : ℝ) ^ 2 + 0 ^ 2) = 0 by norm_num, Real.sqrt_zero]
    norm_num
  rw [if_pos hcc]

/-- A non-lethal same-position hit in the C1 run. -/
theorem c1_hit_live (h h2 : ℤ) (vx vx2 : ℝ) (hh : h2 = h - 20) (hv : vx2 = vx + 3)
    (hlivecond : ¬ h - 20 ≤ 0) :
    HealthOp (c1Car h vx false) (c1Car h2 vx2 false) := by
  have key := handle_same_pos c1Bottle (c1Car h vx false) rfl
    (show ¬"bob" = "alice" by decide) rfl
  have hop := HealthOp.hit (c1Car h vx false) c1Bottle rfl rfl (by rw [key])
  have heq : elimCheck ((handleBottleCarCollision c1Bottle (c1Car h vx false)).2.1) =
      c1Car h2 vx2 false := by
    rw [key]
    unfold elimCheck
    dsimp only [c1Car, c1Bottle]
    rw [if_neg hlivecond, hh, hv]
  rw [heq] at hop
  exact hop

/-- The lethal same-position hit in the C1 run. -/
theorem c1_hit_dead (h h2 : ℤ) (vx vx2 : ℝ) (hh : h2 = h - 20) (hv : vx2 = vx + 3)
    (hdeadcond : h - 20 ≤ 0) :
    HealthOp (c1Car h vx false) (c1Car h2 vx2 true) := by
  have key := handle_same_pos c1Bottle (c1Car h vx false) rfl
    (show ¬"bob" = "alice" by decide) rfl
  have hop := HealthOp.hit (c1Car h vx false) c1Bottle rfl rfl (by rw [key])
  have heq : elimCheck ((handleBottleCarCollision c1Bottle (c1Car h vx false)).2.1) =
      c1Car h2 vx2 true := by
    rw [key]
    unfold elimCheck
    dsimp only [c1Car, c1Bottle]
    rw [if_pos hdeadcond, hh, hv]
  rw [heq] at hop
  exact hop

/-- A same-position health power-up collection in the C1 run. -/
theorem c1_heal (h h2 : ℤ) (vx : ℝ) (hh : h2 = min (h + 30) 100) :
    HealthOp (c1Car h vx false) (c1Car h2 vx false) := by
  have key := collect_same_pos c1PowerUp (c1Car h vx false) rfl rfl
  have hop := HealthOp.heal (c1Car h vx false) c1PowerUp rfl rfl (by rw [key])
  have heq : (handlePowerUpCollection c1PowerUp (c1Car h vx false)).2.1 =
      c1Car h2 vx false := by
    rw [key]
    dsimp only
    unfold applyPowerUp
    dsimp only [c1PowerUp, c1Car]
    rw [hh]
  rw [heq] at hop
  exact hop

/-- C1 counterexample: health is a reachable -10, below the claimed range.
The run: 100 - four hits - 20, health power-up to 50, two hits to 10, and the
final hit drives health to -10 before the elimination flag is set. -/
theorem claim1_counterexample :
    HealthReach (c1Car (-10) 21 true) ∧ (c1Car (-10) 21 true).health < 0 := by
  refine ⟨⟨c1Car 100 0 false, ⟨"car0", "alice", "Alice", 0, c1Car_init⟩, ?_⟩, by decide⟩
  have s1 := c1_hit_live 100 80 0 3 (by norm_num) (by norm_num) (by norm_num)
  have s2 := c1_hit_live 80 60 3 6 (by norm_num) (by norm_num) (by norm_num)
  have s3 := c1_hit_live 60 40 6 9 (by norm_num) (by norm_num) (by norm_num)
  have s4 := c1_hit_live 40 20 9 12 (by norm_num) (by norm_num) (by norm_num)
  have s5 := c1_heal 20 50 12 (by decide)
  have s6 := c1_hit_live 50 30 12 15 (by norm_num) (by norm_num) (by norm_num)
  have s7 := c1_hit_live 30 10 15 18 (by norm_num) (by norm_num) (by norm_num)
  have s8 := c1_hit_dead 10 (-10) 18 21 (by norm_num) (by norm_num) (by norm_num)
  exact Relation.ReflTransGen.tail
    (Relation.ReflTransGen.tail
      (Relation.ReflTransGen.tail
        (Relation.ReflTransGen.tail
          (Relation.ReflTransGen.tail
            (Relation.ReflTransGen.tail
              (Relation.ReflTransGen.tail
                (Relation.ReflTransGen.tail Relation.ReflTransGen.refl s1) s2) s3) s4) s5)
          s6) s7) s8

/-! Claim C4: the speed cap. -/

/-- Speed magnitudes are nonnegative. -/
theorem speedOf_nonneg (v : Vec2) : 0 ≤ speedOf v := Real.sqrt_nonneg _

/-- Squares respect the absolute-value order. -/
theorem sq_le_of_abs_le (a b : ℝ) (h : |a| ≤ |b|) : a ^ 2 ≤ b ^ 2 := by
  calc a ^ 2 = |a| ^ 2 := (sq_abs a).symm
    _ ≤ |b| ^ 2 := pow_le_pow_left₀ (abs_nonneg a) h 2
    _ = b ^ 2 := sq_abs b

/-- The speed magnitude is monotone in the componentwise absolute values. -/
theorem speedOf_le_of_abs_le (v w : Vec2) (hx : |v.x| ≤ |w.x|) (hy : |v.y| ≤ |w.y|) :
    speedOf v ≤ speedOf w :=
  Real.sqrt_le_sqrt (add_le_add (sq_le_of_abs_le _ _ hx) (sq_le_of_abs_le _ _ hy))

/-- The boundary reflection never increases the absolute x velocity. -/
theorem keepInBounds_abs_vel_x (car : Car) :
    |(keepInBounds car).velocity.x| ≤ |car.velocity.x| := by
  rw [keepInBounds_vel_x]
  split_ifs
  · rw [abs_of_nonneg (mul_nonneg (abs_nonneg _) (by norm_num))]
    have := abs_nonneg car.velocity.x
    linarith
  · rw [show -|car.velocity.x| * 0.5 = -(|car.velocity.x| * 0.5) by ring, abs_neg,
      abs_of_nonneg (mul_nonneg (abs_nonneg _) (by norm_num))]
    have := abs_nonneg car.velocity.x
    linarith
  · exact le_refl _

/-- The boundary reflection never increases the absolute y velocity. -/
theorem keepInBounds_abs_vel_y (car : Car) :
    |(keepInBounds car).velocity.y| ≤ |car.velocity.y| := by
  rw [keepInBounds_vel_y]
  split_ifs
  · rw [abs_of_nonneg (mul_nonneg (abs_nonneg _) (by norm_num))]
    have := abs_nonneg car.velocity.y
    linarith
  · rw [show -|car.velocity.y| * 0.5 = -(|car.velocity.y| * 0.5) by ring, abs_neg,
      abs_of_nonneg (mul_nonneg (abs_nonneg _) (by norm_num))]
    have := abs_nonneg car.velocity.y
    linarith
  · exact le_refl _

/-- The boundary reflection never increases speed. -/
theorem keepInBounds_speed_le (car : Car) :
    speedOf (keepInBounds car).velocity ≤ speedOf car.velocity :=
  speedOf_le_of_abs_le _ _ (keepInBounds_abs_vel_x car) (keepInBounds_abs_vel_y car)

/-- The rescaling branch of updateCarPhysics caps the speed at m exactly. -/
theorem clamp_speed_le (v : Vec2) (m : ℝ) (hm : 0 ≤ m) :
    speedOf (if m < speedOf v then
        (⟨v.x / speedOf v * m, v.y / speedOf v * m⟩ : Vec2) else v) ≤ m := by
  by_cases hc : m < speedOf v
  · rw [if_pos hc]
    have hs : 0 < speedOf v := lt_of_le_of_lt hm hc
    have hval : speedOf ⟨v.x / speedOf v * m, v.y / speedOf v * m⟩ = m := by
      have hs' : speedOf v ≠ 0 := ne_of_gt hs
      unfold speedOf at hs hs' ⊢
      dsimp only
      rw [show (v.x / Real.sqrt (v.x ^ 2 + v.y ^ 2) * m) ^ 2 +
            (v.y / Real.sqrt (v.x ^ 2 + v.y ^ 2) * m) ^ 2
            = (m / Real.sqrt (v.x ^ 2 + v.y ^ 2)) ^ 2 * (v.x ^ 2 + v.y ^ 2) by ring]
      rw [Real.sqrt_mul (sq_nonneg _), Real.sqrt_sq_eq_abs]
      rw [abs_of_nonneg (div_nonneg hm (le_of_lt hs)), div_mul_cancel₀ _ hs']
    rw [hval]
  · rw [if_neg hc]
    exact le_of_not_lt hc

/-- After updateCarPhysics the speed never exceeds the (unchanged) cap. -/
theorem updateCarPhysics_speed_le (car : Car) (input : InputKeys)
    (hm : 0 ≤ car.maxSpeed) :
    speedOf (updateCarPhysics car input).velocity ≤ car.maxSpeed :=
  le_trans (keepInBounds_speed_le _) (clamp_speed_le _ car.maxSpeed hm)

/-- Adding an impulse of magnitude 3 along any angle raises the speed by at
most 3. -/
theorem speed_add_impulse_le (v : Vec2) (θ : ℝ) :
    speedOf ⟨v.x + Real.cos θ * 3, v.y + Real.sin θ * 3⟩ ≤ speedOf v + 3 := by
  unfold speedOf
  dsimp only
  have hA0 : 0 ≤ Real.sqrt (v.x ^ 2 + v.y ^ 2) := Real.sqrt_nonneg _
  have hA2 : Real.sqrt (v.x ^ 2 + v.y ^ 2) ^ 2 = v.x ^ 2 + v.y ^ 2 :=
    Real.sq_sqrt (by positivity)
  have hcs : Real.cos θ ^ 2 + Real.sin θ ^ 2 = 1 := Real.cos_sq_add_sin_sq θ
  have hA2m : Real.sqrt (v.x ^ 2 + v.y ^ 2) ^ 2
      = (v.x ^ 2 + v.y ^ 2) * (Real.cos θ ^ 2 + Real.sin θ ^ 2) := by
    rw [hcs, mul_one]
    exact hA2
  have hdot2 : (v.x * Real.cos θ + v.y * Real.sin θ) ^ 2
      ≤ Real.sqrt (v.x ^ 2 + v.y ^ 2) ^ 2 := by
    nlinarith [sq_nonneg (v.x * Real.sin θ - v.y * Real.cos θ)]
  have hdot : v.x * Real.cos θ + v.y * Real.sin θ ≤ Real.sqrt (v.x ^ 2 + v.y ^ 2) := by
    have h := Real.sqrt_le_sqrt hdot2
    rw [Real.sqrt_sq_eq_abs, Real.sqrt_sq_eq_abs] at h
    calc v.x * Real.cos θ + v.y * Real.sin θ
        ≤ |v.x * Real.cos θ + v.y * Real.sin θ| := le_abs_self _
      _ ≤ |Real.sqrt (v.x ^ 2 + v.y ^ 2)| := h
      _ = Real.sqrt (v.x ^ 2 + v.y ^ 2) := abs_of_nonneg hA0
  have key : (v.x + Real.cos θ * 3) ^ 2 + (v.y + Real.sin θ * 3) ^ 2
      ≤ (Real.sqrt (v.x ^ 2 + v.y ^ 2) + 3) ^ 2 := by
    nlinarith [hdot, hA2, hcs]
  calc Real.sqrt ((v.x + Real.cos θ * 3) ^ 2 + (v.y + Real.sin θ * 3) ^ 2)
      ≤ Real.sqrt ((Real.sqrt (v.x ^ 2 + v.y ^ 2) + 3) ^ 2) := Real.sqrt_le_sqrt key
    _ = Real.sqrt (v.x ^ 2 + v.y ^ 2) + 3 := Real.sqrt_sq (by linarith)

/-- A projectile hit raises the speed of the struck car by at most the
knockback magnitude 3 (and a miss leaves it unchanged). -/
theorem knockback_speed_le (b : Bottle) (c : Car) :
    speedOf ((handleBottleCarCollision b c).2.1).velocity ≤ speedOf c.velocity + 3 := by
  unfold handleBottleCarCollision
  by_cases h1 : b.playerId = c.playerId ∨ b.active = false
  · rw [if_pos h1]
    dsimp only
    linarith [speedOf_nonneg c.velocity]
  · rw [if_neg h1]
    by_cases h2 : checkCollision b.position c.position 5 20
    · rw [if_pos h2]
      dsimp only
      exact speed_add_impulse_le c.velocity _
    · rw [if_neg h2]
      dsimp only
      linarith [speedOf_nonneg c.velocity]

/-- C4 amended: the physics update does clamp the speed to the (unchanged)
maxSpeed, but the projectile knockback adds an impulse of magnitude 3 without
re-clamping, so right after a hit the speed may exceed maxSpeed by up to 3
until the next physics update; likewise the speed boost expiry lowers
maxSpeed back to 8 without rescaling the velocity. -/
theorem claim4_amended (car : Car) (input : InputKeys) (b : Bottle) (c : Car)
    (hm : 0 ≤ car.maxSpeed) :
    (speedOf (updateCarPhysics car input).velocity ≤ car.maxSpeed ∧
     (updateCarPhysics car input).maxSpeed = car.maxSpeed) ∧
    speedOf ((handleBottleCarCollision b c).2.1).velocity ≤ speedOf c.velocity + 3 ∧
    ((speedBoostExpire c).velocity = c.velocity ∧
     (speedBoostExpire c).maxSpeed = MAX_SPEED) :=
  ⟨⟨updateCarPhysics_speed_le car input hm, rfl⟩, knockback_speed_le b c, rfl, rfl⟩

/-- A car of the C4 scenarios. -/
def c4WCar : Car := createCar "car4w" "dana" "Dana" 1

/-- A forward-only input. -/
def c4Input : InputKeys := ⟨true, false, false, false, false⟩

/-- C4 amended, witnessed on a fresh car and a same-spot bottle. -/
theorem claim4_amended_witness :
    speedOf (updateCarPhysics c4WCar c4Input).velocity ≤ c4WCar.maxSpeed ∧
    speedOf ((handleBottleCarCollision c1Bottle c4WCar).2.1).velocity ≤
      speedOf c4WCar.velocity + 3 := by
  have h := claim4_amended c4WCar c4Input c1Bottle c4WCar (show (0 : ℝ) ≤ 8 by norm_num)
  exact ⟨h.1.1, h.2.1⟩

/-- The car of the C4 counterexample: at full speed 8 = maxSpeed. -/
def c4Car : Car :=
  { id := "car4", playerId := "carol", playerName := "Carol", position := ⟨101, 100⟩,
    velocity := ⟨8, 0⟩, rotation := 0, health := 100, maxHealth := 100, speed := 0,
    maxSpeed := 8, acceleration := 0.5, bottles := 5, lap := 0, lapTime := 0,
    totalTime := 0, isEliminated := false, powerUps := [], color := "#44ff44" }

/-- The bottle of the C4 counterexample, one unit behind the car. -/
def c4Bottle : Bottle :=
  { id := "b4", position := ⟨100, 100⟩, velocity := ⟨0, 0⟩, playerId := "bob",
    damage := 20, active := true }

/-- atan2 0 1 is 0 (the argument of the complex number 1). -/
theorem atan2_zero_one : atan2 0 1 = 0 := by
  unfold atan2
  rw [show (⟨1, 0⟩ : ℂ) = 1 from Complex.ext rfl rfl, Complex.arg_one]

/-- The C4 bottle does not belong to the C4 car and is active. -/
theorem c4_guard1 : ¬(c4Bottle.playerId = c4Car.playerId ∨ c4Bottle.active = false) := by
  decide

/-- The C4 bottle overlaps the C4 car (distance 1 < 25). -/
theorem c4_guard2 : checkCollision c4Bottle.position c4Car.position 5 20 := by
  unfold checkCollision
  dsimp only [c4Bottle, c4Car]
  rw [show ((100 : ℝ) - 101) ^ 2 + ((100 : ℝ) - 100) ^ 2 = 1 by norm_num, Real.sqrt_one]
  norm_num

/-- The C4 hit happens. -/
theorem c4_hit_flag : (handleBottleCarCollision c4Bottle c4Car).2.2 = true := by
  unfold handleBottleCarCollision
  rw [if_neg c4_guard1, if_pos c4_guard2]

/-- The C4 hit in explicit form: knockback along angle 0 adds 3 to the x
velocity of a car already at full speed. -/
theorem c4_hit_velocity :
    (handleBottleCarCollision c4Bottle c4Car).2.1.velocity = ⟨11, 0⟩ := by
  unfold handleBottleCarCollision
  rw [if_neg c4_guard1, if_pos c4_guard2]
  dsimp only [c4Bottle, c4Car]
  rw [show (100 : ℝ) - 100 = 0 by norm_num, show (101 : ℝ) - 100 = 1 by norm_num,
    atan2_zero_one, Real.cos_zero, Real.sin_zero]
  ext <;> dsimp <;> norm_num

/-- C4 counterexample: a car at speed exactly maxSpeed = 8 is hit from
directly behind; the knockback leaves maxSpeed at 8 and the car alive but
drives its speed to 11 > 8, refuting the cap invariant across the knockback
operation. -/
theorem claim4_counterexample :
    speedOf c4Car.velocity ≤ c4Car.maxSpeed ∧
    c4Car.isEliminated = false ∧
    (handleBottleCarCollision c4Bottle c4Car).2.1.maxSpeed = c4Car.maxSpeed ∧
    (handleBottleCarCollision c4Bottle c4Car).2.1.isEliminated = false ∧
    c4Car.maxSpeed < speedOf (handleBottleCarCollision c4Bottle c4Car).2.1.velocity := by
  obtain ⟨v, hv⟩ := hit_effect c4Bottle c4Car c4_hit_flag
  refine ⟨?_, rfl, ?_, ?_, ?_⟩
  · show Real.sqrt ((8 : ℝ) ^ 2 + 0 ^ 2) ≤ 8
    rw [show ((8 : ℝ) ^ 2 + 0 ^ 2) = 8 ^ 2 by norm_num,
      Real.sqrt_sq (by norm_num : (0 : ℝ) ≤ 8)]
  · rw [hv]
  · rw [hv]
    rfl
  · rw [show (handleBottleCarCollision c4Bottle c4Car).2.1.velocity = ⟨11, 0⟩
      from c4_hit_velocity]
    show (8 : ℝ) < Real.sqrt ((11 : ℝ) ^ 2 + 0 ^ 2)
    rw [show ((11 : ℝ) ^ 2 + 0 ^ 2) = 11 ^ 2 by norm_num,
      Real.sqrt_sq (by norm_num : (0 : ℝ) ≤ 11)]
    norm_num

/-! Claim C8: the order of the physics sub-steps.  The six small functions
below are modelled from the claim wording (and spec section 4.3), one
function per listed step; the claim is settled by proving that the monolithic
source translation updateCarPhysics is exactly their composition followed by
the boundary handling. -/

/-- Claim step 1: add an impulse of magnitude 0.5 along the heading if
forward is pressed. -/
def c8Forward (input : InputKeys) (car : Car) : Car :=
  if input.up then
    { car with velocity := ⟨car.velocity.x + Real.cos car.rotation * 0.5,
                            car.velocity.y + Real.sin car.rotation * 0.5⟩ }
  else car

/-- Claim step 2: scale the velocity by 0.8 if brake is pressed. -/
def c8Brake (input : InputKeys) (car : Car) : Car :=
  if input.down then
    { car with velocity := ⟨car.velocity.x * 0.8, car.velocity.y * 0.8⟩ }
  else car

/-- Claim step 3: change the heading by plus or minus 0.08 * (speed / 8) per
pressed turn input, only when the pre-friction speed exceeds 0.5. -/
def c8Turn (input : InputKeys) (car : Car) : Car :=
  if 0.5 < speedOf car.velocity then
    { car with rotation :=
        let r1 := if input.left then
            car.rotation - 0.08 * (speedOf car.velocity / 8) else car.rotation
        if input.right then r1 + 0.08 * (speedOf car.velocity / 8) else r1 }
  else car

/-- Claim step 4: scale the velocity by 0.95 unconditionally. -/
def c8Friction (car : Car) : Car :=
  { car with velocity := ⟨car.velocity.x * 0.95, car.velocity.y * 0.95⟩ }

/-- Claim step 5: rescale the velocity to maxSpeed if its magnitude exceeds
maxSpeed. -/
def c8ClampSpeed (car : Car) : Car :=
  if car.maxSpeed < speedOf car.velocity then
    { car with velocity := ⟨car.velocity.x / speedOf car.velocity * car.maxSpeed,
                            car.velocity.y / speedOf car.velocity * car.maxSpeed⟩ }
  else car

/-- Claim step 6: add the velocity to the position. -/
def c8Integrate (car : Car) : Car :=
  { car with position := ⟨car.position.x + car.velocity.x,
                          car.position.y + car.velocity.y⟩ }

/-- C8: one physics update is exactly the claimed ordered composition —
forward impulse, brake scaling, speed-gated turning on the pre-friction
speed, unconditional friction, speed clamping, position integration — with
the boundary handling of C5 applied at the end. -/
theorem claim8_step_order (car : Car) (input : InputKeys) :
    updateCarPhysics car input =
      keepInBounds (c8Integrate (c8ClampSpeed (c8Friction
        (c8Turn input (c8Brake input (c8Forward input car)))))) := by
  obtain ⟨u, d, l, r, s⟩ := input
  cases u <;> cases d <;> cases l <;> cases r <;>
    simp only [updateCarPhysics, c8Forward, c8Brake, c8Turn, c8Friction, c8ClampSpeed,
      c8Integrate, apply_ite Car.id, apply_ite Car.playerId, apply_ite Car.playerName,
      apply_ite Car.rotation, apply_ite Car.velocity, apply_ite Car.position,
      apply_ite Car.maxSpeed, apply_ite Car.health, apply_ite Car.maxHealth,
      apply_ite Car.speed, apply_ite Car.acceleration, apply_ite Car.bottles,
      apply_ite Car.lap, apply_ite Car.lapTime, apply_ite Car.totalTime,
      apply_ite Car.isEliminated, apply_ite Car.powerUps, apply_ite Car.color,
      apply_ite Vec2.x, apply_ite Vec2.y, ite_self,
      Bool.false_eq_true, if_true, if_false, ACCELERATION, BRAKE_FORCE, TURN_SPEED,
      FRICTION, MAX_SPEED]

/-! Claim C6: projectile lifecycle and the single-hit policy. -/

/-- The qualifying-hit test of the updateGame car loop as a boolean: the car
is not eliminated and handleBottleCarCollision reports a hit (which itself
requires the bottle active, not owned by the car, and overlapping). -/
def qualifiesB (b : Bottle) (c : Car) : Bool :=
  !c.isEliminated && (handleBottleCarCollision b c).2.2

/-- The index of the first qualifying car in insertion order. -/
def firstQualifying (b : Bottle) : List Car → Option ℕ
  | [] => none
  | c :: cs => if qualifiesB b c then some 0 else (firstQualifying b cs).map (fun i => i + 1)

/-- The state of the struck car after damage and the elimination check. -/
def postHit (b : Bottle) (c : Car) : Car :=
  elimCheck (handleBottleCarCollision b c).2.1

/-- The boolean test agrees with the propositional loop condition. -/
theorem qualifiesB_iff (b : Bottle) (c : Car) :
    qualifiesB b c = true ↔
      (c.isEliminated = false ∧ (handleBottleCarCollision b c).2.2 = true) := by
  unfold qualifiesB
  rw [Bool.and_eq_true, Bool.not_eq_true']

/-- An inactive bottle qualifies against no car. -/
theorem qualifiesB_of_inactive (b : Bottle) (hb : b.active = false) (c : Car) :
    qualifiesB b c = false := by
  unfold qualifiesB handleBottleCarCollision
  rw [if_pos (Or.inr hb)]
  simp

/-- A reported hit deactivates the bottle. -/
theorem hit_bottle_effect (b : Bottle) (c : Car)
    (h : (handleBottleCarCollision b c).2.2 = true) :
    (handleBottleCarCollision b c).1 = { b with active := false } := by
  unfold handleBottleCarCollision at h ⊢
  by_cases h1 : b.playerId = c.playerId ∨ b.active = false
  · rw [if_pos h1] at h
    exact absurd h (by simp)
  · rw [if_neg h1] at h ⊢
    by_cases h2 : checkCollision b.position c.position 5 20
    · rw [if_pos h2]
    · rw [if_neg h2] at h
      exact absurd h (by simp)

/-- The moved bottle position. -/
theorem updateBottlePhysics_position (b : Bottle) :
    (updateBottlePhysics b).position =
      ⟨b.position.x + b.velocity.x, b.position.y + b.velocity.y⟩ := rfl

/-- The active flag after the bottle move. -/
theorem updateBottlePhysics_active (b : Bottle) :
    (updateBottlePhysics b).active =
      if outOfBounds (updateBottlePhysics b).position then false else b.active := rfl

/-- When no car qualifies, firstQualifying is none. -/
theorem firstQualifying_none_of_all (b : Bottle) (cars : List Car)
    (h : ∀ c ∈ cars, qualifiesB b c = false) : firstQualifying b cars = none := by
  induction cars with
  | nil => rfl
  | cons c cs ih =>
    unfold firstQualifying
    rw [if_neg (by rw [h c (List.mem_cons_self c cs)]; simp)]
    rw [ih fun c2 h2 => h c2 (List.mem_cons_of_mem c h2)]
    rfl

/-- With no qualifying car the hit scan leaves everything unchanged. -/
theorem bottleHitScan_none (b : Bottle) (cars : List Car)
    (h : firstQualifying b cars = none) : bottleHitScan b cars = (b, cars) := by
  induction cars with
  | nil => rfl
  | cons c cs ih =>
    unfold firstQualifying at h
    by_cases hq : qualifiesB b c = true
    · rw [if_pos hq] at h
      exact absurd h (by simp)
    · rw [if_neg hq] at h
      have hnone : firstQualifying b cs = none := by
        cases hfq : firstQualifying b cs with
        | none => rfl
        | some i => rw [hfq] at h; exact absurd h (by simp)
      unfold bottleHitScan
      rw [if_neg (by rw [← qualifiesB_iff]; simp [hq])]
      rw [ih hnone]

/-- The hit scan rewrites exactly the first qualifying car and deactivates
the bottle. -/
theorem bottleHitScan_some (b : Bottle) (cars : List Car) (i : ℕ) (c : Car)
    (h : firstQualifying b cars = some i) (hc : cars[i]? = some c) :
    bottleHitScan b cars = ((handleBottleCarCollision b c).1, cars.set i (postHit b c)) := by
  induction cars generalizing i with
  | nil => exact absurd h (by simp [firstQualifying])
  | cons c0 cs ih =>
    unfold firstQualifying at h
    by_cases hq : qualifiesB b c0 = true
    · rw [if_pos hq] at h
      have hi : i = 0 := by
        simpa using h.symm
      subst hi
      have hc0 : c0 = c := by simpa using hc
      subst hc0
      unfold bottleHitScan
      rw [if_pos ((qualifiesB_iff b c0).mp hq)]
      rfl
    · rw [if_neg hq] at h
      cases hfq : firstQualifying b cs with
      | none =>
        rw [hfq] at h
        exact absurd h (by simp)
      | some j =>
        rw [hfq] at h
        have hij : i = j + 1 := by
          simpa using h.symm
        subst hij
        have hc2 : cs[j]? = some c := by simpa using hc
        unfold bottleHitScan
        rw [if_neg (by rw [← qualifiesB_iff]; simp [hq])]
        rw [ih j hfq hc2]
        rfl

/-- All cars strictly before the first qualifying index fail the test. -/
theorem firstQualifying_earliest (b : Bottle) (cars : List Car) (i : ℕ)
    (h : firstQualifying b cars = some i) :
    ∀ j cj, j < i → cars[j]? = some cj → qualifiesB b cj = false := by
  induction cars generalizing i with
  | nil => intro j cj hj hcj; simp at hcj
  | cons c0 cs ih =>
    unfold firstQualifying at h
    by_cases hq : qualifiesB b c0 = true
    · rw [if_pos hq] at h
      have hi : i = 0 := by
        simpa using h.symm
      subst hi
      intro j cj hj hcj
      omega
    · rw [if_neg hq] at h
      cases hfq : firstQualifying b cs with
      | none =>
        rw [hfq] at h
        exact absurd h (by simp)
      | some k =>
        rw [hfq] at h
        have hik : i = k + 1 := by
          simpa using h.symm
        subst hik
        intro j cj hj hcj
        cases j with
        | zero =>
          have : c0 = cj := by simpa using hcj
          rw [← this]
          exact Bool.not_eq_true _ ▸ (by simpa using hq)
        | succ j2 =>
          have hcj2 : cs[j2]? = some cj := by simpa using hcj
          exact ih k hfq j2 cj (by omega) hcj2

/-- Every bottle surviving in the list produced by the bottle filter is still
active, so a deactivated bottle is discarded and can never be deactivated a
second time. -/
theorem stepBottles_all_active (bs : List Bottle) (cars : List Car) :
    ∀ b2 ∈ (stepBottles bs cars).1, b2.active = true := by
  induction bs generalizing cars with
  | nil => intro b2 h; simp [stepBottles] at h
  | cons b bs ih =>
    intro b2 h
    unfold stepBottles at h
    by_cases hb : b.active = false
    · rw [if_pos hb] at h
      exact ih cars b2 h
    · rw [if_neg hb] at h
      dsimp only at h
      by_cases ha : (processBottle b cars).1.active = true
      · rw [if_pos ha] at h
        rcases List.mem_cons.mp h with h1 | h2
        · rw [h1]; exact ha
        · exact ih _ b2 h2
      · rw [if_neg ha] at h
        exact ih _ b2 h

/-- C6: one tick of the bottle filter deactivates an active projectile for
exactly one of two causes and damages at most one car.  If the integrated
position leaves the track rectangle, the projectile is deactivated, no car
qualifies and no car is touched; if it stays inside and no car qualifies, it
stays active and no car is touched; if it stays inside and some car
qualifies, the projectile is deactivated by the hit and exactly the first
qualifying car in insertion order is replaced (damage, knockback and
elimination check), every earlier car failing the test. -/
theorem claim6_projectile_lifecycle (b : Bottle) (cars : List Car) (hb : b.active = true) :
    (outOfBounds (updateBottlePhysics b).position →
      (updateBottlePhysics b).active = false ∧
      firstQualifying (updateBottlePhysics b) cars = none ∧
      processBottle b cars = (updateBottlePhysics b, cars)) ∧
    (¬ outOfBounds (updateBottlePhysics b).position →
      firstQualifying (updateBottlePhysics b) cars = none →
      (updateBottlePhysics b).active = true ∧
      processBottle b cars = (updateBottlePhysics b, cars)) ∧
    (∀ i c, firstQualifying (updateBottlePhysics b) cars = some i → cars[i]? = some c →
      processBottle b cars =
        ({ updateBottlePhysics b with active := false },
         cars.set i (postHit (updateBottlePhysics b) c)) ∧
      (∀ j cj, j < i → cars[j]? = some cj →
        qualifiesB (updateBottlePhysics b) cj = false)) := by
  refine ⟨?_, ?_, ?_⟩
  · intro hoob
    have hact : (updateBottlePhysics b).active = false := by
      rw [updateBottlePhysics_active, if_pos hoob]
    have hnone : firstQualifying (updateBottlePhysics b) cars = none :=
      firstQualifying_none_of_all _ _ fun c _ => qualifiesB_of_inactive _ hact c
    exact ⟨hact, hnone, bottleHitScan_none _ _ hnone⟩
  · intro hoob hnone
    refine ⟨?_, bottleHitScan_none _ _ hnone⟩
    rw [updateBottlePhysics_active, if_neg hoob, hb]
  · intro i c hfq hc
    have hq : qualifiesB (updateBottlePhysics b) c = true := by
      induction cars generalizing i with
      | nil => simp at hc
      | cons c0 cs ih =>
        unfold firstQualifying at hfq
        by_cases hq0 : qualifiesB (updateBottlePhysics b) c0 = true
        · rw [if_pos hq0] at hfq
          have hi : i = 0 := by
            simpa using hfq.symm
          subst hi
          have : c0 = c := by simpa using hc
          rw [← this]
          exact hq0
        · rw [if_neg hq0] at hfq
          cases hfq2 : firstQualifying (updateBottlePhysics b) cs with
          | none => rw [hfq2] at hfq; exact absurd hfq (by simp)
          | some k =>
            rw [hfq2] at hfq
            have hik : i = k + 1 := by
              simpa using hfq.symm
            subst hik
            exact ih k hfq2 (by simpa using hc)
    have hflag : (handleBottleCarCollision (updateBottlePhysics b) c).2.2 = true :=
      ((qualifiesB_iff _ _).mp hq).2
    have hscan := bottleHitScan_some (updateBottlePhysics b) cars i c hfq hc
    rw [hit_bottle_effect _ _ hflag] at hscan
    exact ⟨hscan, firstQualifying_earliest _ _ i hfq⟩

/-- The bottle of the C6 witness, resting mid-track. -/
def c6Bottle : Bottle :=
  { id := "b6", position := ⟨400, 300⟩, velocity := ⟨0, 0⟩, playerId := "w",
    damage := 20, active := true }

/-- C6 witnessed: the resting mid-track bottle with no cars stays active and
changes nothing. -/
theorem claim6_projectile_lifecycle_witness :
    (updateBottlePhysics c6Bottle).active = true ∧
    processBottle c6Bottle [] = (updateBottlePhysics c6Bottle, []) := by
  have hoob : ¬ outOfBounds (updateBottlePhysics c6Bottle).position := by
    rw [updateBottlePhysics_position]
    unfold outOfBounds TRACK_WIDTH TRACK_HEIGHT
    dsimp only [c6Bottle]
    norm_num
  exact (claim6_projectile_lifecycle c6Bottle [] rfl).2.1 hoob rfl

/-! Claim C7: win evaluation. -/

/-- A car that crosses the lap target on this tick: alive, inside the lap
zone while moving rightward, and one increment away from the target. -/
def FinishesNow (maxLaps : ℕ) (c : Car) : Prop :=
  c.isEliminated = false ∧ inLapZone c ∧ c.lap < maxLaps ∧ maxLaps ≤ c.lap + 1

/-- The finish flag of lapCar captures exactly FinishesNow. -/
theorem lapCar_fin_iff (ml rt : ℕ) (c : Car) :
    (lapCar ml rt c).2 = true ↔ FinishesNow ml c := by
  unfold lapCar FinishesNow
  by_cases he : c.isEliminated
  · rw [if_pos he]
    simp [he]
  · rw [if_neg he]
    dsimp only
    have hzr : inLapZone { c with totalTime := rt } ↔ inLapZone c := Iff.rfl
    by_cases hz : inLapZone c
    · rw [if_pos (hzr.mpr hz)]
      by_cases hl : c.lap < ml
      · rw [if_pos (show ({ c with totalTime := rt } : Car).lap < ml from hl)]
        simp [he, hz, hl, decide_eq_true_iff]
      · rw [if_neg (show ¬ (({ c with totalTime := rt } : Car).lap < ml) from hl)]
        simp [he, hz, hl]
    · rw [if_neg (fun hq => hz (hzr.mp hq))]
      simp [he, hz]

/-- lapCar keeps the owner. -/
theorem lapCar_playerId (ml rt : ℕ) (c : Car) :
    ((lapCar ml rt c).1).playerId = c.playerId := by
  unfold lapCar
  dsimp only
  split_ifs <;> rfl

/-- lapCar keeps the elimination flag. -/
theorem lapCar_isEliminated (ml rt : ℕ) (c : Car) :
    ((lapCar ml rt c).1).isEliminated = c.isEliminated := by
  unfold lapCar
  dsimp only
  split_ifs <;> rfl

/-- The cars produced by the lap fold. -/
theorem stepLaps_cars (ml rt : ℕ) (cars : List Car) (e : Bool) (w : Option String) :
    (stepLaps ml rt cars e w).1 = cars.map fun c => (lapCar ml rt c).1 := by
  induction cars generalizing e w with
  | nil => rfl
  | cons c cs ih =>
    unfold stepLaps
    dsimp only
    rw [ih]
    rfl

/-- The ended flag produced by the lap fold. -/
theorem stepLaps_ended (ml rt : ℕ) (cars : List Car) (e : Bool) (w : Option String) :
    (stepLaps ml rt cars e w).2.1 = (e || cars.any fun c => (lapCar ml rt c).2) := by
  induction cars generalizing e w with
  | nil => simp [stepLaps]
  | cons c cs ih =>
    unfold stepLaps
    dsimp only
    cases hf : (lapCar ml rt c).2 <;> simp [hf, ih]

/-- The finisher whose playerId the lap fold leaves in the winner field: the
last one in iteration order, each finisher overwriting the previous. -/
def lastFinisher (ml rt : ℕ) : List Car → Option Car
  | [] => none
  | c :: cs =>
    match lastFinisher ml rt cs with
    | some c2 => some c2
    | none => if (lapCar ml rt c).2 then some c else none

/-- The winner produced by the lap fold. -/
theorem stepLaps_winner (ml rt : ℕ) (cars : List Car) (e : Bool) (w : Option String) :
    (stepLaps ml rt cars e w).2.2 =
      match lastFinisher ml rt cars with
      | none => w
      | some c => some c.playerId := by
  induction cars generalizing e w with
  | nil => rfl
  | cons c cs ih =>
    unfold stepLaps lastFinisher
    dsimp only
    cases hf : (lapCar ml rt c).2 <;>
      cases hlf : lastFinisher ml rt cs <;>
        simp [hf, hlf, ih, lapCar_playerId]

/-- A reported last finisher is a finishing member of the list. -/
theorem lastFinisher_spec (ml rt : ℕ) (cars : List Car) (c : Car)
    (h : lastFinisher ml rt cars = some c) :
    c ∈ cars ∧ (lapCar ml rt c).2 = true := by
  induction cars with
  | nil => exact absurd h (by simp [lastFinisher])
  | cons c0 cs ih =>
    unfold lastFinisher at h
    cases hlf : lastFinisher ml rt cs with
    | some c2 =>
      rw [hlf] at h
      obtain ⟨h1, h2⟩ := ih (by rw [hlf, Option.some.injEq]; exact Option.some.inj h)
      exact ⟨List.mem_cons_of_mem c0 h1, h2⟩
    | none =>
      rw [hlf] at h
      dsimp only at h
      by_cases hf : (lapCar ml rt c0).2 = true
      · rw [if_pos hf] at h
        have := Option.some.inj h
        subst this
        exact ⟨List.mem_cons_self c0 cs, hf⟩
      · rw [if_neg hf] at h
        exact absurd h (by simp)

/-- When some member finishes, a last finisher exists. -/
theorem lastFinisher_isSome (ml rt : ℕ) (cars : List Car) (c : Car)
    (hmem : c ∈ cars) (hf : (lapCar ml rt c).2 = true) :
    ∃ c2, lastFinisher ml rt cars = some c2 := by
  induction cars with
  | nil => simp at hmem
  | cons c0 cs ih =>
    unfold lastFinisher
    rcases List.mem_cons.mp hmem with h1 | h2
    · cases hlf : lastFinisher ml rt cs with
      | some c2 => exact ⟨c2, rfl⟩
      | none =>
        subst h1
        exact ⟨c, by rw [if_pos hf]⟩
    · obtain ⟨c2, hc2⟩ := ih h2
      rw [hc2]
      exact ⟨c2, rfl⟩

/-- When no member finishes, there is no last finisher. -/
theorem lastFinisher_none (ml rt : ℕ) (cars : List Car)
    (h : ∀ c ∈ cars, (lapCar ml rt c).2 = false) :
    lastFinisher ml rt cars = none := by
  induction cars with
  | nil => rfl
  | cons c0 cs ih =>
    unfold lastFinisher
    rw [ih fun c hc => h c (List.mem_cons_of_mem c0 hc)]
    rw [h c0 (List.mem_cons_self c0 cs)]
    rfl

/-- The alive filter commutes with the lap update. -/
theorem alive_filter_map (ml rt : ℕ) (cars : List Car) :
    ((cars.map fun c => (lapCar ml rt c).1).filter fun c => !c.isEliminated)
      = (cars.filter fun c => !c.isEliminated).map fun c => (lapCar ml rt c).1 := by
  rw [List.filter_map]
  congr 1
  apply List.filter_congr
  intro c _
  simp [Function.comp, lapCar_isEliminated]

/-- C7: win evaluation after lap tracking.  If some car reaches the lap
target this tick, the session ends and the winner is a car that reached the
target (the last such in iteration order); otherwise, when at most one
non-eliminated car remains and the session had not already ended, the session
ends with the sole survivor as winner when exactly one remains, and with the
winner field left untouched (no winner is assigned; it is none in any session
that had no previous winner) when none remains. -/
theorem claim7_win_evaluation (ml rt : ℕ) (cars : List Car) (e : Bool)
    (w : Option String) :
    ((∃ c ∈ cars, FinishesNow ml c) →
      (evalRace ml rt cars e w).2.1 = true ∧
      ∃ c2 ∈ cars, FinishesNow ml c2 ∧
        (evalRace ml rt cars e w).2.2 = some c2.playerId) ∧
    ((∀ c ∈ cars, ¬ FinishesNow ml c) → e = false →
      (cars.filter fun c => !c.isEliminated).length ≤ 1 →
      (evalRace ml rt cars e w).2.1 = true ∧
      (∀ a, (cars.filter fun c => !c.isEliminated) = [a] →
        (evalRace ml rt cars e w).2.2 = some a.playerId) ∧
      ((cars.filter fun c => !c.isEliminated) = [] →
        (evalRace ml rt cars e w).2.2 = w)) := by
  constructor
  · intro hex
    obtain ⟨c, hmem, hfin⟩ := hex
    have hfb : (lapCar ml rt c).2 = true := (lapCar_fin_iff ml rt c).mpr hfin
    have hended : (stepLaps ml rt cars e w).2.1 = true := by
      rw [stepLaps_ended]
      have : (cars.any fun c2 => (lapCar ml rt c2).2) = true :=
        List.any_eq_true.mpr ⟨c, hmem, hfb⟩
      rw [this, Bool.or_true]
    obtain ⟨c2, hc2⟩ := lastFinisher_isSome ml rt cars c hmem hfb
    obtain ⟨hc2mem, hc2fin⟩ := lastFinisher_spec ml rt cars c2 hc2
    have hwin : (stepLaps ml rt cars e w).2.2 = some c2.playerId := by
      rw [stepLaps_winner, hc2]
    unfold evalRace
    rw [if_neg (by rw [hended]; simp)]
    exact ⟨hended, c2, hc2mem, (lapCar_fin_iff ml rt c2).mp hc2fin, hwin⟩
  · intro hnone he hlen
    have hall : ∀ c ∈ cars, (lapCar ml rt c).2 = false := by
      intro c hc
      rw [Bool.eq_false_iff]
      intro hab
      exact hnone c hc ((lapCar_fin_iff ml rt c).mp hab)
    have hended0 : (stepLaps ml rt cars e w).2.1 = false := by
      rw [stepLaps_ended, he]
      have : (cars.any fun c2 => (lapCar ml rt c2).2) = false := by
        rw [Bool.eq_false_iff]
        intro hab
        obtain ⟨c, hc, hf⟩ := List.any_eq_true.mp hab
        rw [hall c hc] at hf
        exact absurd hf (by simp)
      rw [this, Bool.or_false]
    have hwin0 : (stepLaps ml rt cars e w).2.2 = w := by
      rw [stepLaps_winner, lastFinisher_none ml rt cars hall]
    have halive : ((stepLaps ml rt cars e w).1.filter fun c => !c.isEliminated)
        = (cars.filter fun c => !c.isEliminated).map fun c => (lapCar ml rt c).1 := by
      rw [stepLaps_cars, alive_filter_map]
    unfold evalRace
    rw [if_pos ⟨by rw [halive, List.length_map]; exact hlen, hended0⟩]
    refine ⟨rfl, ?_, ?_⟩
    · intro a ha
      have : ((stepLaps ml rt cars e w).1.filter fun c => !c.isEliminated)
          = [(lapCar ml rt a).1] := by
        rw [halive, ha]
        rfl
      rw [this]
      dsimp only
      rw [lapCar_playerId]
    · intro ha
      have hnil : ((stepLaps ml rt cars e w).1.filter fun c => !c.isEliminated)
          = [] := by
        rw [halive, ha]
        rfl
      rw [hnil]
      dsimp only
      exact hwin0

/-- The finishing car of the C7 witness: alive, in the lap zone moving
rightward, on its last lap of three. -/
def c7Car : Car :=
  { createCar "car7" "pat" "Pat" 0 with
      lap := 2
      position := ⟨40, 90⟩
      velocity := ⟨1, 0⟩ }

/-- C7 witnessed: the single finishing car ends the session as winner. -/
theorem claim7_win_evaluation_witness :
    (evalRace 3 5 [c7Car] false none).2.1 = true ∧
    ∃ c2 ∈ [c7Car], FinishesNow 3 c2 ∧
      (evalRace 3 5 [c7Car] false none).2.2 = some c2.playerId := by
  have hfin : FinishesNow 3 c7Car := by
    refine ⟨rfl, ⟨?_, ?_, ?_⟩, ?_, ?_⟩
    · show (40 : ℝ) < 50
      norm_num
    · show (90 : ℝ) < 100
      norm_num
    · show (0 : ℝ) < 1
      norm_num
    · decide
    · decide
  exact (claim7_win_evaluation 3 5 [c7Car] false none).1 ⟨c7Car, by simp, hfin⟩

/-! Claim C9: the host is always a member; leaving reassigns or destroys. -/

/-- The room invariant: the host is one of the current members. -/
def hostOk (r : Room) : Prop := r.host ∈ r.players.map Player.id

/-- Membership in a list after replacing the first room with a given id. -/
theorem mem_replaceRoom (rid : String) (r2 x : Room) (rooms : List Room)
    (h : x ∈ replaceRoom rid r2 rooms) : x ∈ rooms ∨ x = r2 := by
  induction rooms with
  | nil => simp [replaceRoom] at h
  | cons r rs ih =>
    unfold replaceRoom at h
    by_cases hid : (r.id == rid) = true
    · rw [if_pos hid] at h
      rcases List.mem_cons.mp h with h1 | h2
      · exact Or.inr h1
      · exact Or.inl (List.mem_cons_of_mem r h2)
    · rw [if_neg hid] at h
      rcases List.mem_cons.mp h with h1 | h2
      · exact Or.inl (by rw [h1]; exact List.mem_cons_self r rs)
      · rcases ih h2 with h3 | h4
        · exact Or.inl (List.mem_cons_of_mem r h3)
        · exact Or.inr h4

/-- joinRoom preserves the host invariant. -/
theorem joinRoomRoom_hostOk (pid pname : String) (r : Room) (h : hostOk r) :
    hostOk (joinRoomRoom pid pname r) := by
  unfold joinRoomRoom
  split_ifs with h1 h2
  · exact h
  · exact h
  · unfold hostOk at h ⊢
    dsimp only
    rw [List.map_append]
    exact List.mem_append_left _ h

/-- playerInput preserves the host invariant. -/
theorem playerInputRoom_hostOk (sockId : String) (input : InputKeys) (bid : String)
    (r : Room) (h : hostOk r) : hostOk (playerInputRoom sockId input bid r) := by
  unfold playerInputRoom
  split
  · exact h
  · split
    · exact h
    · split
      · exact h
      · exact h

/-- Removing a member keeps every other member id in the projection. -/
theorem mem_map_removeFirstPlayer (sockId a : String) (l : List Player)
    (ha : a ∈ l.map Player.id) (hne : a ≠ sockId) :
    a ∈ (removeFirstPlayer sockId l).map Player.id := by
  induction l with
  | nil => simp at ha
  | cons p ps ih =>
    simp only [List.map_cons] at ha
    unfold removeFirstPlayer
    by_cases hp : (p.id == sockId) = true
    · rw [if_pos hp]
      rcases List.mem_cons.mp ha with h1 | h2
      · have hps : p.id = sockId := by simpa using hp
        rw [h1, hps] at hne
        exact absurd rfl hne
      · exact h2
    · rw [if_neg hp]
      simp only [List.map_cons]
      rcases List.mem_cons.mp ha with h1 | h2
      · rw [h1]
        exact List.mem_cons_self _ _
      · exact List.mem_cons_of_mem _ (ih h2)

/-- A surviving room after a leave satisfies the host invariant. -/
theorem leaveRoomStep_hostOk (sockId : String) (r r1 : Room) (h : hostOk r)
    (hs : leaveRoomStep sockId r = some r1) : hostOk r1 := by
  unfold leaveRoomStep at hs
  dsimp only at hs
  revert hs
  cases hrem : removeFirstPlayer sockId r.players with
  | nil => intro hs; exact absurd hs (by simp)
  | cons p ps =>
    intro hs
    have h1 := Option.some.inj hs
    rw [← h1]
    by_cases hh : (r.host == sockId) = true
    · rw [if_pos hh]
      unfold hostOk
      dsimp only
      simp
    · rw [if_neg hh]
      unfold hostOk at h ⊢
      dsimp only
      have hne : r.host ≠ sockId := by
        intro he
        rw [he] at hh
        simp at hh
      have := mem_map_removeFirstPlayer sockId r.host r.players h hne
      rw [hrem] at this
      exact this

/-- The disconnect iteration preserves the host invariant on every surviving
room. -/
theorem disconnectRooms_hostOk (sockId : String) (rooms : List Room)
    (loops : List String) (h : ∀ r ∈ rooms, hostOk r) :
    ∀ r ∈ (disconnectRooms sockId rooms loops).1, hostOk r := by
  induction rooms generalizing loops with
  | nil => intro r hr; simp [disconnectRooms] at hr
  | cons r0 rs ih =>
    intro r hr
    unfold disconnectRooms at hr
    by_cases hc : (r0.players.any fun p => p.id == sockId) = true
    · rw [if_pos hc] at hr
      cases hls : leaveRoomStep sockId r0 with
      | none =>
        rw [hls] at hr
        exact h r (List.mem_cons_of_mem r0 hr)
      | some r1 =>
        rw [hls] at hr
        rcases List.mem_cons.mp hr with h1 | h2
        · rw [h1]
          exact leaveRoomStep_hostOk sockId r0 r1 (h r0 (List.mem_cons_self r0 rs)) hls
        · exact h r (List.mem_cons_of_mem r0 h2)
    · rw [if_neg hc] at hr
      dsimp only at hr
      rcases List.mem_cons.mp hr with h1 | h2
      · rw [h1]
        exact h r0 (List.mem_cons_self r0 rs)
      · exact ih loops (fun r2 hr2 => h r2 (List.mem_cons_of_mem r0 hr2)) r h2

/-- Every handler preserves the host-is-a-member invariant on all rooms. -/
theorem regReach_hostOk (reg : Registry) (h : RegReach reg) :
    ∀ r ∈ reg.rooms, hostOk r := by
  induction h with
  | empty => intro r hr; simp at hr
  | create reg2 rid rname pname sockId _ ih =>
    intro r hr
    unfold createRoomOp at hr
    dsimp only at hr
    rcases List.mem_append.mp hr with h1 | h2
    · exact ih r h1
    · rw [List.mem_singleton.mp h2]
      unfold hostOk
      simp
  | join reg2 rid pid pname _ ih =>
    intro r hr
    unfold joinRoomOp at hr
    revert hr
    cases hf : findRoom rid reg2.rooms with
    | none => intro hr; exact ih r hr
    | some room =>
      intro hr
      dsimp only at hr
      rcases mem_replaceRoom rid _ r reg2.rooms hr with h1 | h2
      · exact ih r h1
      · rw [h2]
        exact joinRoomRoom_hostOk pid pname room
          (ih room (List.mem_of_find?_eq_some hf))
  | start reg2 rid sockId carIds puIds puPos _ ih =>
    intro r hr
    unfold startGameOp at hr
    revert hr
    cases hf : findRoom rid reg2.rooms with
    | none => intro hr; exact ih r hr
    | some room =>
      intro hr
      dsimp only at hr
      by_cases hg : (room.host == sockId && decide (2 ≤ room.players.length)) = true
      · rw [if_pos hg] at hr
        dsimp only at hr
        rcases mem_replaceRoom rid _ r reg2.rooms hr with h1 | h2
        · exact ih r h1
        · rw [h2]
          exact ih room (List.mem_of_find?_eq_some hf)
      · rw [if_neg hg] at hr
        exact ih r hr
  | input reg2 rid sockId inp bottleId _ ih =>
    intro r hr
    unfold playerInputOp at hr
    revert hr
    cases hf : findRoom rid reg2.rooms with
    | none => intro hr; exact ih r hr
    | some room =>
      intro hr
      dsimp only at hr
      rcases mem_replaceRoom rid _ r reg2.rooms hr with h1 | h2
      · exact ih r h1
      · rw [h2]
        exact playerInputRoom_hostOk sockId inp bottleId room
          (ih room (List.mem_of_find?_eq_some hf))
  | tick reg2 rid puIds puPos _ ih =>
    intro r hr
    unfold tickOp at hr
    revert hr
    cases hf : findRoom rid reg2.rooms with
    | none => intro hr; exact ih r hr
    | some room =>
      intro hr
      dsimp only at hr
      by_cases hg : room.gameState.gameStarted = false ∨ room.gameState.gameEnded = true
      · rw [if_pos hg] at hr
        exact ih r hr
      · rw [if_neg hg] at hr
        dsimp only at hr
        rcases mem_replaceRoom rid _ r reg2.rooms hr with h1 | h2
        · exact ih r h1
        · rw [h2]
          exact ih room (List.mem_of_find?_eq_some hf)
  | disconnect reg2 sockId _ ih =>
    intro r hr
    unfold disconnectOp at hr
    dsimp only at hr
    exact disconnectRooms_hostOk sockId reg2.rooms reg2.loops ih r hr

/-- C9: after every registry operation the host of every room is one of its
current members; a leave by the current host with members remaining reassigns
the host to the next member in join order; and when the last member leaves,
the room is deleted from the registry and its loop entry is discarded. -/
theorem claim9_host_and_lifecycle (reg : Registry) (h : RegReach reg) :
    (∀ r ∈ reg.rooms, hostOk r) ∧
    (∀ sockId (r : Room) (p : Player) (ps : List Player), r.host = sockId →
      removeFirstPlayer sockId r.players = p :: ps →
      ∃ r1, leaveRoomStep sockId r = some r1 ∧ r1.host = p.id ∧ r1.players = p :: ps) ∧
    (∀ sockId (pre : List Room) (r : Room) (post : List Room) (loops : List String),
      (∀ r2 ∈ pre, (r2.players.any fun q => q.id == sockId) = false) →
      (r.players.any fun q => q.id == sockId) = true →
      removeFirstPlayer sockId r.players = [] →
      disconnectRooms sockId (pre ++ r :: post) loops =
        (pre ++ post, loops.filter fun l => !(l == r.id))) := by
  refine ⟨regReach_hostOk reg h, ?_, ?_⟩
  · intro sockId r p ps hhost hrem
    unfold leaveRoomStep
    dsimp only
    rw [hrem]
    dsimp only
    rw [if_pos (by rw [hhost]; exact beq_self_eq_true sockId)]
    exact ⟨_, rfl, rfl, rfl⟩
  · intro sockId pre r post loops hpre hin hrem
    induction pre with
    | nil =>
      dsimp only [List.nil_append]
      unfold disconnectRooms
      rw [if_pos hin]
      have hnone : leaveRoomStep sockId r = none := by
        unfold leaveRoomStep
        dsimp only
        rw [hrem]
      rw [hnone]
    | cons r0 rs ih =>
      dsimp only [List.cons_append]
      unfold disconnectRooms
      rw [if_neg (by rw [hpre r0 (List.mem_cons_self r0 rs)]; simp)]
      dsimp only
      rw [ih fun r2 h2 => hpre r2 (List.mem_cons_of_mem r0 h2)]

/-- A two-member room hosted by A, for the C9 witness. -/
def w9Room : Room :=
  { id := "r1", name := "Track", players := [⟨"A", "Alice"⟩, ⟨"B", "Bob"⟩],
    maxPlayers := 6, host := "A", gameState := createInitialGameState "r1" }

/-- A one-member room hosted by A, for the C9 witness. -/
def w9Solo : Room :=
  { id := "r2", name := "Solo", players := [⟨"A", "Alice"⟩],
    maxPlayers := 6, host := "A", gameState := createInitialGameState "r2" }

/-- C9 witnessed: the invariant on a freshly created registry, the host
reassignment to the next join-order member, and the destruction of a room
emptied by its last member leaving. -/
theorem claim9_host_and_lifecycle_witness :
    (∀ r ∈ (createRoomOp "r1" "Track" "Alice" "A" ⟨[], []⟩).rooms, hostOk r) ∧
    (∃ r1, leaveRoomStep "A" w9Room = some r1 ∧ r1.host = "B" ∧
      r1.players = [⟨"B", "Bob"⟩]) ∧
    disconnectRooms "A" ([] ++ w9Solo :: []) ["r2"] =
      ([] ++ [], ["r2"].filter fun l => !(l == w9Solo.id)) := by
  have hreach : RegReach (createRoomOp "r1" "Track" "Alice" "A" ⟨[], []⟩) :=
    RegReach.create _ "r1" "Track" "Alice" "A" RegReach.empty
  have h := claim9_host_and_lifecycle _ hreach
  refine ⟨h.1, ?_, ?_⟩
  · exact h.2.1 "A" w9Room ⟨"B", "Bob"⟩ [] rfl rfl
  · exact h.2.2 "A" [] w9Solo [] ["r2"] (fun r2 h2 => absurd h2 (List.not_mem_nil r2))
      rfl rfl

/-! Claim C10: joining a started session yields no car until a new start. -/

/-- The member owns no car in the session. -/
def noCar (pid : String) (room : Room) : Prop :=
  ∀ c ∈ room.gameState.players, c.playerId ≠ pid

/-- find? misses when no car belongs to the member. -/
theorem findCar_eq_none (pid : String) (cars : List Car)
    (h : ∀ c ∈ cars, c.playerId ≠ pid) : findCar cars pid = none := by
  unfold findCar
  rw [List.find?_eq_none]
  intro c hc
  simp [h c hc]

/-- playerInput from a member without a car is a no-op. -/
theorem playerInputRoom_no_car (pid bid : String) (input : InputKeys) (room : Room)
    (h : findCar room.gameState.players pid = none) :
    playerInputRoom pid input bid room = room := by
  unfold playerInputRoom
  split
  · rfl
  · rw [h]

/-- Membership in a car list after replacing the first matching car. -/
theorem mem_replaceFirstCar (pid : String) (nc : Car) (l : List Car) (c : Car)
    (h : c ∈ replaceFirstCar pid nc l) : c ∈ l ∨ c = nc := by
  induction l with
  | nil => simp [replaceFirstCar] at h
  | cons c0 cs ih =>
    unfold replaceFirstCar at h
    by_cases hp : (c0.playerId == pid) = true
    · rw [if_pos hp] at h
      rcases List.mem_cons.mp h with h1 | h2
      · exact Or.inr h1
      · exact Or.inl (List.mem_cons_of_mem c0 h2)
    · rw [if_neg hp] at h
      rcases List.mem_cons.mp h with h1 | h2
      · exact Or.inl (by rw [h1]; exact List.mem_cons_self c0 cs)
      · rcases ih h2 with h3 | h4
        · exact Or.inl (List.mem_cons_of_mem c0 h3)
        · exact Or.inr h4

/-- The physics update keeps the owner. -/
theorem updateCarPhysics_playerId (c : Car) (input : InputKeys) :
    (updateCarPhysics c input).playerId = c.playerId := rfl

/-- A bottle collision keeps the owner of the struck car. -/
theorem handle_car_playerId (b : Bottle) (c : Car) :
    ((handleBottleCarCollision b c).2.1).playerId = c.playerId := by
  unfold handleBottleCarCollision
  split_ifs <;> rfl

/-- The elimination check keeps the owner. -/
theorem elimCheck_playerId (c : Car) : (elimCheck c).playerId = c.playerId := by
  unfold elimCheck
  split_ifs <;> rfl

/-- Power-up effects keep the owner. -/
theorem applyPowerUp_playerId (p : PowerUp) (c : Car) :
    (applyPowerUp p c).playerId = c.playerId := by
  unfold applyPowerUp
  cases p.type <;> rfl

/-- A power-up collection keeps the owner. -/
theorem collect_car_playerId (p : PowerUp) (c : Car) :
    ((handlePowerUpCollection p c).2.1).playerId = c.playerId := by
  unfold handlePowerUpCollection
  split_ifs <;> first | rfl | exact applyPowerUp_playerId p c

/-- Every car after the bottle hit scan descends from an input car with the
same owner. -/
theorem bottleHitScan_playerIds (b : Bottle) (cars : List Car) :
    ∀ c2 ∈ (bottleHitScan b cars).2, ∃ c ∈ cars, c2.playerId = c.playerId := by
  induction cars with
  | nil => intro c2 h; simp [bottleHitScan] at h
  | cons c0 cs ih =>
    intro c2 h
    unfold bottleHitScan at h
    by_cases hq : c0.isEliminated = false ∧ (handleBottleCarCollision b c0).2.2 = true
    · rw [if_pos hq] at h
      rcases List.mem_cons.mp h with h1 | h2
      · refine ⟨c0, List.mem_cons_self c0 cs, ?_⟩
        rw [h1, elimCheck_playerId, handle_car_playerId]
      · exact ⟨c2, List.mem_cons_of_mem c0 h2, rfl⟩
    · rw [if_neg hq] at h
      dsimp only at h
      rcases List.mem_cons.mp h with h1 | h2
      · exact ⟨c0, List.mem_cons_self c0 cs, by rw [h1]⟩
      · obtain ⟨c3, h3, h4⟩ := ih c2 h2
        exact ⟨c3, List.mem_cons_of_mem c0 h3, h4⟩

/-- Every car after the whole bottle phase descends from an input car with
the same owner. -/
theorem stepBottles_playerIds (bs : List Bottle) (cars : List Car) :
    ∀ c2 ∈ (stepBottles bs cars).2, ∃ c ∈ cars, c2.playerId = c.playerId := by
  induction bs generalizing cars with
  | nil => intro c2 h; exact ⟨c2, by simpa [stepBottles] using h, rfl⟩
  | cons b bs ih =>
    intro c2 h
    unfold stepBottles at h
    by_cases hb : b.active = false
    · rw [if_pos hb] at h
      exact ih cars c2 h
    · rw [if_neg hb] at h
      dsimp only at h
      obtain ⟨c3, h3, h4⟩ := ih _ c2 h
      obtain ⟨c4, h5, h6⟩ := bottleHitScan_playerIds _ cars c3 h3
      exact ⟨c4, h5, by rw [h4, h6]⟩

/-- Every car after one power-up scan descends from an input car with the
same owner. -/
theorem powerUpScan_playerIds (p : PowerUp) (cars : List Car) :
    ∀ c2 ∈ (powerUpScan p cars).2, ∃ c ∈ cars, c2.playerId = c.playerId := by
  induction cars with
  | nil => intro c2 h; simp [powerUpScan] at h
  | cons c0 cs ih =>
    intro c2 h
    unfold powerUpScan at h
    by_cases hq : c0.isEliminated = false ∧ (handlePowerUpCollection p c0).2.2 = true
    · rw [if_pos hq] at h
      rcases List.mem_cons.mp h with h1 | h2
      · exact ⟨c0, List.mem_cons_self c0 cs, by rw [h1, collect_car_playerId]⟩
      · exact ⟨c2, List.mem_cons_of_mem c0 h2, rfl⟩
    · rw [if_neg hq] at h
      dsimp only at h
      rcases List.mem_cons.mp h with h1 | h2
      · exact ⟨c0, List.mem_cons_self c0 cs, by rw [h1]⟩
      · obtain ⟨c3, h3, h4⟩ := ih c2 h2
        exact ⟨c3, List.mem_cons_of_mem c0 h3, h4⟩

/-- Every car after the whole power-up phase descends from an input car with
the same owner. -/
theorem stepPowerUps_playerIds (ps : List PowerUp) (cars : List Car) :
    ∀ c2 ∈ (stepPowerUps ps cars).2, ∃ c ∈ cars, c2.playerId = c.playerId := by
  induction ps generalizing cars with
  | nil => intro c2 h; exact ⟨c2, by simpa [stepPowerUps] using h, rfl⟩
  | cons p ps ih =>
    intro c2 h
    unfold stepPowerUps at h
    dsimp only at h
    obtain ⟨c3, h3, h4⟩ := ih _ c2 h
    by_cases hc : p.collected = true
    · rw [if_pos hc] at h3
      exact ⟨c3, h3, h4⟩
    · rw [if_neg hc] at h3
      obtain ⟨c4, h5, h6⟩ := powerUpScan_playerIds p cars c3 h3
      exact ⟨c4, h5, by rw [h4, h6]⟩

/-- evalRace returns the lap-updated cars in both branches. -/
theorem evalRace_cars (ml rt : ℕ) (cars : List Car) (e : Bool) (w : Option String) :
    (evalRace ml rt cars e w).1 = (stepLaps ml rt cars e w).1 := by
  unfold evalRace
  dsimp only
  split <;> rfl

/-- Every car after one full tick descends from an input car with the same
owner: the tick adds no car. -/
theorem stepGame_playerIds (puIds : List String) (puPos : List Vec2) (gs : GameState) :
    ∀ c2 ∈ (stepGame puIds puPos gs).players, ∃ c ∈ gs.players, c2.playerId = c.playerId := by
  intro c2 h
  unfold stepGame at h
  dsimp only at h
  rw [evalRace_cars, stepLaps_cars] at h
  obtain ⟨c3, h3, hmap⟩ := List.mem_map.mp h
  obtain ⟨c4, h4, h5⟩ := stepPowerUps_playerIds _ _ c3 h3
  obtain ⟨c5, h6, h7⟩ := stepBottles_playerIds _ _ c4 h4
  refine ⟨c5, h6, ?_⟩
  rw [← hmap, lapCar_playerId, h5, h7]

/-- The cars created at start are keyed exactly by the member ids. -/
theorem mapWithIndex_map_playerId (carIds : List String) (n : ℕ) (l : List Player) :
    (mapWithIndex (fun i p => createCar ((carIds[i]?).getD "") p.id p.name i) n l).map
      Car.playerId = l.map Player.id := by
  induction l generalizing n with
  | nil => rfl
  | cons p ps ih =>
    simp only [mapWithIndex, List.map_cons]
    rw [ih]
    rfl

/-- C10: joining a room whose session is already started succeeds below the
capacity and appends the member, but creates no car for them; every
subsequent applyInput from that member is a no-op, and no operation other
than a new startGame (which creates one car per current member) ever creates
a car for them. -/
theorem claim10_join_during_race (pid pname sockId bottleId : String)
    (input : InputKeys) (room : Room) (carIds puIds : List String) (puPos : List Vec2)
    (q qn : String) :
    (room.gameState.gameStarted = true → room.maxPlayers = 6 →
      room.players.length < 6 → (room.players.any fun p2 => p2.id == pid) = false →
      joinRoomRoom pid pname room =
        { room with players := room.players ++ [{ id := pid, name := pname }] }) ∧
    (noCar pid room → playerInputRoom pid input bottleId room = room) ∧
    (noCar pid room →
      noCar pid (joinRoomRoom q qn room) ∧
      noCar pid (playerInputRoom sockId input bottleId room) ∧
      (∀ r1, leaveRoomStep sockId room = some r1 → noCar pid r1) ∧
      noCar pid (updateGame puIds puPos room)) ∧
    (pid ∈ room.players.map Player.id →
      ∃ c ∈ (startSession carIds puIds puPos room).gameState.players,
        c.playerId = pid) := by
  refine ⟨?_, ?_, ?_, ?_⟩
  · intro _ hmax hlen hany
    unfold joinRoomRoom
    rw [if_neg (by rw [hmax]; omega)]
    rw [if_neg (by rw [hany]; simp)]
  · intro h
    exact playerInputRoom_no_car pid bottleId input room
      (findCar_eq_none pid room.gameState.players h)
  · intro h
    refine ⟨?_, ?_, ?_, ?_⟩
    · unfold joinRoomRoom
      split_ifs <;> exact h
    · unfold playerInputRoom
      split
      · exact h
      · split
        · exact h
        · rename_i car hfind
          split
          · exact h
          · intro c2 hc2
            dsimp only at hc2
            rcases mem_replaceFirstCar sockId _ _ c2 hc2 with h1 | h2
            · exact h c2 h1
            · rw [h2, updateCarPhysics_playerId]
              have hcar1 : (if (input.space && decide (0 < car.bottles)) = true then
                  { car with bottles := car.bottles - 1 } else car).playerId
                  = car.playerId := by
                rw [apply_ite Car.playerId]
                simp
              rw [hcar1]
              exact h car (List.mem_of_find?_eq_some hfind)
    · intro r1 hs
      unfold leaveRoomStep at hs
      dsimp only at hs
      revert hs
      cases removeFirstPlayer sockId room.players with
      | nil => intro hs; exact absurd hs (by simp)
      | cons p ps =>
        intro hs
        have h1 := Option.some.inj hs
        rw [← h1]
        intro c2 hc2
        by_cases hh : (room.host == sockId) = true
        · rw [if_pos hh] at hc2
          dsimp only at hc2
          exact h c2 (List.mem_of_mem_filter hc2)
        · rw [if_neg hh] at hc2
          dsimp only at hc2
          exact h c2 (List.mem_of_mem_filter hc2)
    · unfold updateGame
      split
      · exact h
      · intro c2 hc2
        dsimp only at hc2
        obtain ⟨c3, h3, h4⟩ := stepGame_playerIds puIds puPos room.gameState c2 hc2
        rw [h4]
        exact h c3 h3
  · intro hmem
    rw [← mapWithIndex_map_playerId carIds 0 room.players] at hmem
    obtain ⟨c, hc, hcp⟩ := List.mem_map.mp hmem
    exact ⟨c, hc, hcp⟩

/-- C10 witnessed on the started (and in fact finished) room of the C3
scenarios: carol joins mid-session, gets no car, and her inputs are no-ops,
while a fresh start would create a car for every current member. -/
theorem claim10_join_during_race_witness :
    joinRoomRoom "carol" "Carol" c3Room =
      { c3Room with players := c3Room.players ++ [{ id := "carol", name := "Carol" }] } ∧
    playerInputRoom "carol" c3Input "b10" c3Room = c3Room ∧
    noCar "carol" (updateGame [] [] c3Room) ∧
    ∃ c ∈ (startSession [] [] [] c3Room).gameState.players, c.playerId = "alice" := by
  have hnc : noCar "carol" c3Room := by
    intro c hc
    rw [List.mem_singleton.mp hc]
    decide
  have h := claim10_join_during_race "carol" "Carol" "zed" "b10" c3Input c3Room
    [] [] [] "q" "qn"
  refine ⟨h.1 rfl rfl (by decide) rfl, h.2.1 hnc, (h.2.2.1 hnc).2.2.2, ?_⟩
  have h2 := claim10_join_during_race "alice" "Alice" "zed" "b10" c3Input c3Room
    [] [] [] "q" "qn"
  exact h2.2.2.2 (by decide)

end RaceGame
end
